import Mathlib

/-!
# Barcode generator page script (`src/js/script.js`)

A shallow embedding of the page script: the form-reading, validation,
debounce and status-message code, with the external barcode renderer and the
browser's timer table made explicit.

Conventions of the embedding

* A JavaScript string is modelled by a Lean `String` (its sequence of code
  points).  The script only inspects ASCII digits and white space, all of
  which are single UTF-16 code units, and `jsLength` counts code units the way
  `.length` does.
* `examples[v]` and `icons[type]` are property reads on object literals, so a
  key that is not an own property is looked up on `Object.prototype`
  (`PropVal.inherited`); what such a member converts to as a string is left to
  the engine (`Host.nativeText`).
* A `let` binding that is read before its declaration has been evaluated
  raises a `ReferenceError`; `Binding.uninitialised` records that state.
* Timers are the entries of `Page.timers`; identifiers are handed out from an
  increasing counter, as browsers do.
-/

namespace Barcode

/-! ## Strings -/

/-- The regular expression class `\d` (without the unicode flag): `0`-`9`. -/
def isAsciiDigit (c : Char) : Bool :=
  decide (48 ≤ c.toNat) && decide (c.toNat ≤ 57)

/-- The result of `text.replace(/\D/g, '')`: every character outside `\d` is removed. -/
def stripNonDigits (text : String) : String :=
  ⟨text.data.filter isAsciiDigit⟩

/-- Number of UTF-16 code units of one code point. -/
def utf16Units (c : Char) : Nat :=
  if c.toNat < 65536 then 1 else 2

/-- The `.length` of a string: its number of UTF-16 code units. -/
def jsLength (s : String) : Nat :=
  (s.data.map utf16Units).sum

/-- White space and line terminators, the characters `String.prototype.trim` strips. -/
def isJsWhiteSpace (c : Char) : Bool :=
  let n := c.toNat
  n == 9 || n == 10 || n == 11 || n == 12 || n == 13 || n == 32 || n == 160 ||
  n == 5760 || (decide (8192 ≤ n) && decide (n ≤ 8202)) || n == 8232 || n == 8233 ||
  n == 8239 || n == 8287 || n == 12288 || n == 65279

/-- The method `String.prototype.trim`. -/
def trim (s : String) : String :=
  ⟨((s.data.dropWhile isJsWhiteSpace).reverse.dropWhile isJsWhiteSpace).reverse⟩

/-- The call `s.replace(c, '')` with a one-character string pattern: only the first occurrence goes. -/
def removeFirst (c : Char) (s : String) : String :=
  ⟨s.data.erase c⟩

/-! ## Property reads on object literals -/

/-- Names of the properties every object literal inherits from `Object.prototype`. -/
def objectPrototypeKeys : List String :=
  ["constructor", "hasOwnProperty", "isPrototypeOf", "propertyIsEnumerable",
   "toLocaleString", "toString", "valueOf", "__proto__",
   "__defineGetter__", "__defineSetter__", "__lookupGetter__", "__lookupSetter__"]

/-- What `obj[key]` yields for an object literal whose own properties are strings. -/
inductive PropVal where
  | undefined
  | str (s : String)
  | inherited (key : String)
deriving DecidableEq, Repr

/-- The read `obj[key]`: own property first, then `Object.prototype`. -/
def getProp (own : List (String × String)) (key : String) : PropVal :=
  match own.lookup key with
  | some s => .str s
  | none => if key ∈ objectPrototypeKeys then .inherited key else .undefined

/-- Truthiness of a property value (`ToBoolean`). -/
def PropVal.truthy : PropVal → Bool
  | .undefined => false
  | .str s => decide (s ≠ "")
  | .inherited _ => true

/-- String conversion of a property value (`ToString`).  What an inherited
member converts to is up to the engine (`native key`): it is a built-in
function, or for `__proto__` the prototype object. -/
def PropVal.toStr (native : String → String) : PropVal → String
  | .undefined => "undefined"
  | .str s => s
  | .inherited key => native key

/-- The expression `obj[key] || fallback`, converted to a string. -/
def getPropOr (native : String → String) (own : List (String × String))
    (key fallback : String) : String :=
  let v := getProp own key
  if v.truthy then v.toStr native else fallback

/-! ## `examples` and `validateForFormat` -/

/-- The table `examples` (lines 22-32). -/
def examples : List (String × String) :=
  [("code128", "Hello-123"),
   ("code39", "CODE39"),
   ("ean13", "012345678901"),
   ("ean8", "96385074"),
   ("upca", "12345678901"),
   ("interleaved2of5", "1234567890"),
   ("qrcode", "https://example.com"),
   ("pdf417", "PDF417 sample text"),
   ("datamatrix", "DMATRIX")]

/-- The object `validateForFormat` returns: `ok`, and `msg` when present. -/
structure Validation where
  ok : Bool
  msg : Option String
deriving DecidableEq, Repr

def msgEnterText : String := "Please enter text to encode."

def msgEan13 : String :=
  "EAN-13 requires 12 or 13 digits (12 digits will auto-calc check digit)."

def msgUpca : String := "UPC-A requires 11 or 12 digits."

/-- The function `validateForFormat(format, text)` (lines 39-54). -/
def validateForFormat (format text : String) : Validation :=
  if text = "" then ⟨false, some msgEnterText⟩
  else if format = "ean13" ∧
      jsLength (stripNonDigits text) ≠ 12 ∧ jsLength (stripNonDigits text) ≠ 13 then
    ⟨false, some msgEan13⟩
  else if format = "upca" ∧
      jsLength (stripNonDigits text) ≠ 11 ∧ jsLength (stripNonDigits text) ≠ 12 then
    ⟨false, some msgUpca⟩
  else ⟨true, none⟩

/-- Number of ASCII decimal digit characters of a text, counted directly. -/
def digitCount (t : String) : Nat :=
  t.data.countP Char.isDigit

/-! ## The page: document, script variables, timers -/

/-- The element `#status`, as far as the script touches it. -/
structure StatusEl where
  className : String
  innerHTML : String
deriving DecidableEq, Repr

/-- The two callbacks the script hands to `setTimeout`: `() => fn(...args)` with
`fn = renderBarcode` (lines 19 and 90), and the status-clearing callback of
`showMessage` (lines 164-167). -/
inductive TimerAction where
  | render
  | clearStatus
deriving DecidableEq, Repr

/-- A pending timer of the browser. -/
structure Timer where
  id : Nat
  delay : Nat
  action : TimerAction
deriving DecidableEq, Repr

/-- State of a `let` binding: before its declaration has been evaluated a read
raises a `ReferenceError`. -/
inductive Binding (α : Type) where
  | uninitialised
  | value (a : α)
deriving DecidableEq, Repr

/-- The options object passed to `bwipjs.toCanvas` (lines 73-83). -/
structure BwipOptions where
  bcid : String
  text : String
  scale : Int
  includetext : Bool
  textxalign : String
  backgroundcolor : String
  barcolor : String
  paddingheight : Nat
  paddingwidth : Nat
deriving DecidableEq, Repr

/-- A value thrown by the renderer: `message` is `err.message` when `err` is
truthy and has one, `none` otherwise. -/
structure JsError where
  message : Option String
deriving DecidableEq, Repr

/-- Whether the declaration of the binding has been evaluated. -/
def Binding.isValue {α : Type} : Binding α → Bool
  | .uninitialised => false
  | .value _ => true

/-- The only exception the script itself can raise and not catch. -/
inductive Uncaught where
  | referenceError (binding : String)
deriving DecidableEq, Repr

/-- Content of the canvas element. -/
structure Canvas where
  pixels : List Nat
deriving DecidableEq, Repr

/-- What the script does not define: the renderer, `parseInt` and the engine.
`toCanvas calls canvas options` is the effect of `bwipjs.toCanvas(canvas, options)`
after the earlier invocations `calls`: the canvas it leaves and the value it
throws, if any.  `parseInt s` is `parseInt(s, 10)`, with `none` for `NaN`.
`nativeText key` is the string the engine converts the member `key` of
`Object.prototype` to. -/
structure Host where
  toCanvas : List BwipOptions → Canvas → BwipOptions → Canvas × Option JsError
  parseInt : String → Option Int
  nativeText : String → String

/-- The state the script reads and writes.  The elements the script dereferences
unguarded are present; `statusEl`, `fgSwatch`, `bgSwatch` and `colorSample` may be
`null`.  `rendererCalls` and `renderRuns` record the invocations of
`bwipjs.toCanvas` and of `renderBarcode`; `consoleErrors` what `console.error`
received at line 85. -/
structure Page where
  inputValue : String
  placeholder : String
  formatValue : String
  scaleValue : String
  includeChecked : Bool
  fgValue : String
  bgValue : String
  canvas : Canvas
  statusEl : Option StatusEl
  fgSwatch : Option String
  bgSwatch : Option String
  colorSample : Option (String × String)
  renderTimer : Option Nat
  msgTimer : Binding (Option Nat)
  timers : List Timer
  nextTimerId : Nat
  rendererCalls : List BwipOptions
  renderRuns : Nat
  consoleErrors : List JsError
deriving DecidableEq, Repr

/-- Outcome of running a piece of the script: the state it leaves and the
exception that escaped, if any. -/
abbrev Completion := Page × Option Uncaught

/-- The call `setTimeout(callback, delay)`: a new pending timer, and its id. -/
def setTimeout (p : Page) (action : TimerAction) (delay : Nat) : Page × Nat :=
  ({ p with timers := p.timers ++ [⟨p.nextTimerId, delay, action⟩],
            nextTimerId := p.nextTimerId + 1 }, p.nextTimerId)

/-- The timer table without the timer `id` names; `null` names none. -/
def cancel (id : Option Nat) (timers : List Timer) : List Timer :=
  match id with
  | none => timers
  | some i => timers.filter (fun t => decide (t.id ≠ i))

/-- The call `clearTimeout(id)`. -/
def clearTimeout (p : Page) (id : Option Nat) : Page :=
  { p with timers := cancel id p.timers }

/-- The function `debounce(fn, wait)` returns (lines 17-20), applied once: it
cancels the timer `renderTimer` names and schedules `fn` after `wait`.  (`wait`
defaults to 300; the only caller passes 220.) -/
def debounce (fn : TimerAction) (wait : Nat) (p : Page) : Page :=
  let p1 := clearTimeout p p.renderTimer
  let r := setTimeout p1 fn wait
  { r.1 with renderTimer := some r.2 }

/-- The constant `debouncedRender` (line 90). -/
def debouncedRender (p : Page) : Page :=
  debounce .render 220 p

/-- Modelled from the spec: the values the format control `#formatSelect` can
hold.  The control and its options are in the page markup, which the script does
not contain; the glossary of the spec makes them the symbologies the rendering
library supports (an empty control holds the empty string).  All that is used of
this is that no such value is the name of a member of `Object.prototype`. -/
def FormatValue (v : String) : Prop :=
  v ∉ objectPrototypeKeys

/-- The function `setPlaceholderForFormat` (lines 34-37). -/
def setPlaceholderForFormat (h : Host) (p : Page) : Page :=
  { p with placeholder :=
      getPropOr h.nativeText examples p.formatValue "Enter text or digits" }

/-- The table `icons` of `showMessage` (lines 156-160). -/
def icons : List (String × String) :=
  [("error", "<svg class=\"icon\" viewBox=\"0 0 24 24\" fill=\"none\" xmlns=\"http://www.w3.org/2000/svg\"><path d=\"M12 9v4\" stroke=\"currentColor\" stroke-width=\"2\" stroke-linecap=\"round\" stroke-linejoin=\"round\"/><path d=\"M12 17h.01\" stroke=\"currentColor\" stroke-width=\"2\" stroke-linecap=\"round\" stroke-linejoin=\"round\"/><path d=\"M10.29 3.86l-7 12A2 2 0 0 0 5 19h14a2 2 0 0 0 1.71-3.14l-7-12a2 2 0 0 0-3.42 0z\" stroke=\"currentColor\" stroke-width=\"0\"/></svg>"),
   ("success", "<svg class=\"icon\" viewBox=\"0 0 24 24\" fill=\"none\" xmlns=\"http://www.w3.org/2000/svg\"><path d=\"M20 6L9 17l-5-5\" stroke=\"currentColor\" stroke-width=\"2\" stroke-linecap=\"round\" stroke-linejoin=\"round\"/></svg>"),
   ("info", "<svg class=\"icon\" viewBox=\"0 0 24 24\" fill=\"none\" xmlns=\"http://www.w3.org/2000/svg\"><path d=\"M12 9h.01\" stroke=\"currentColor\" stroke-width=\"2\" stroke-linecap=\"round\" stroke-linejoin=\"round\"/><path d=\"M11 12h1v4h1\" stroke=\"currentColor\" stroke-width=\"2\" stroke-linecap=\"round\" stroke-linejoin=\"round\"/><path d=\"M21 12A9 9 0 1 1 3 12a9 9 0 0 1 18 0z\" stroke=\"currentColor\" stroke-width=\"0\"/></svg>")]

/-- The value `icons.info`. -/
def iconInfo (h : Host) : String :=
  (getProp icons "info").toStr h.nativeText

/-- The markup `showMessage` writes for `msg` and `type` (line 161). -/
def statusMarkup (h : Host) (msg type : String) : String :=
  getPropOr h.nativeText icons type (iconInfo h) ++ "<span class=\"msg\">" ++ msg ++ "</span>"

/-- The class `showMessage` sets for `type` (line 155). -/
def statusClass (type : String) : String :=
  "status show " ++ (if type = "" then "info" else type)

/-- The function `showMessage(msg, type, timeout)` (lines 152-168).  Callers that
omit `timeout` pass its default, 4000.  Line 154 reads `msgTimer`, which raises
while the declaration at line 151 has not been evaluated. -/
def showMessage (h : Host) (p : Page) (msg type : String) (timeout : Nat) : Completion :=
  match p.statusEl with
  | none => (p, none)
  | some _ =>
    match p.msgTimer with
    | .uninitialised => (p, some (.referenceError "msgTimer"))
    | .value mt =>
      let p1 := clearTimeout p mt
      let p2 := { p1 with statusEl := some ⟨statusClass type, statusMarkup h msg type⟩ }
      if type = "error" then (p2, none)
      else
        let r := setTimeout p2 .clearStatus (if timeout = 0 then 3000 else timeout)
        ({ r.1 with msgTimer := .value (some r.2) }, none)

/-- The text `renderBarcode` encodes (line 57):
`inputText.value.trim() || inputText.placeholder || ''`. -/
def renderText (p : Page) : String :=
  if trim p.inputValue ≠ "" then trim p.inputValue
  else if p.placeholder ≠ "" then p.placeholder
  else ""

/-- The scale `renderBarcode` passes (line 59): `parseInt(scaleInput.value, 10) || 3`. -/
def renderScale (h : Host) (p : Page) : Int :=
  match h.parseInt p.scaleValue with
  | none => 3
  | some n => if n = 0 then 3 else n

/-- The options object built at lines 73-83. -/
def renderOptions (h : Host) (p : Page) : BwipOptions :=
  { bcid := p.formatValue
    text := renderText p
    scale := renderScale h p
    includetext := p.includeChecked
    textxalign := "center"
    backgroundcolor := removeFirst '#' p.bgValue
    barcolor := removeFirst '#' p.fgValue
    paddingheight := 10
    paddingwidth := 10 }

/-- The message shown for a value the renderer threw (line 86). -/
def renderErrorMessage (err : JsError) : String :=
  match err.message with
  | none => "Failed to render barcode."
  | some m => if m = "" then "Failed to render barcode." else m

/-- Entering `renderBarcode`: one more run is recorded. -/
def entered (p : Page) : Page :=
  { p with renderRuns := p.renderRuns + 1 }

/-- The function `renderBarcode` (lines 56-88). -/
def renderBarcode (h : Host) (p0 : Page) : Completion :=
  let p := entered p0
  let v := validateForFormat p.formatValue (renderText p)
  if v.ok = false then
    showMessage h p (v.msg.getD "undefined") "error" 4000
  else
    let p1 := { p with statusEl := p.statusEl.map (fun _ => ⟨"status", ""⟩) }
    let r := h.toCanvas p1.rendererCalls p1.canvas (renderOptions h p1)
    let p2 := { p1 with canvas := r.1,
                        rendererCalls := p1.rendererCalls ++ [renderOptions h p1] }
    match r.2 with
    | none => (p2, none)
    | some err =>
      showMessage h { p2 with consoleErrors := p2.consoleErrors ++ [err] }
        (renderErrorMessage err) "error" 4000

/-- The page when `bwipjs.toCanvas` has returned or thrown (lines 70-83): status
cleared, canvas as the renderer left it, the call recorded. -/
def delegated (h : Host) (p : Page) : Page :=
  { entered p with
    statusEl := p.statusEl.map (fun _ => ⟨"status", ""⟩)
    canvas := (h.toCanvas p.rendererCalls p.canvas (renderOptions h p)).1
    rendererCalls := p.rendererCalls ++ [renderOptions h p] }

/-- The function `updateColorUI` (lines 99-108). -/
def updateColorUI (p : Page) : Page :=
  { p with
    fgSwatch := p.fgSwatch.map (fun old => if p.fgValue ≠ "" then p.fgValue else old)
    bgSwatch := p.bgSwatch.map (fun old => if p.bgValue ≠ "" then p.bgValue else old)
    colorSample := p.colorSample.map (fun _ =>
      (if p.bgValue ≠ "" then p.bgValue else "#fff",
       if p.fgValue ≠ "" then p.fgValue else "#000")) }

/-- The script variables and browser bookkeeping as they are when the top-level
code starts (lines 16 and 151): no timer yet, `msgTimer` not yet declared. -/
def atLoad (document : Page) : Page :=
  { document with
    renderTimer := none, msgTimer := .uninitialised, timers := [],
    rendererCalls := [], renderRuns := 0, consoleErrors := [] }

/-- The top-level statements at lines 146-148: placeholder, default input, colours. -/
def prepared (h : Host) (p : Page) : Page :=
  let p1 := setPlaceholderForFormat h p
  let p2 := if p1.inputValue = "" then
      { p1 with inputValue := getPropOr h.nativeText examples p1.formatValue "" }
    else p1
  updateColorUI p2

/-- The top-level statements at lines 146-151, run once at load: the first
`renderBarcode()` (line 149) comes before the declaration of `msgTimer`
(line 151), which is evaluated only if that call returns. -/
def scriptInit (h : Host) (p : Page) : Completion :=
  match renderBarcode h (prepared h p) with
  | (p4, some e) => (p4, some e)
  | (p4, none) => ({ p4 with msgTimer := .value none }, none)

/-- A pending timer with identifier `id` fires: it leaves the timer table and
its callback runs.  An identifier that is not pending does nothing. -/
def timerFires (h : Host) (p : Page) (id : Nat) : Completion :=
  match p.timers.find? (fun t => decide (t.id = id)) with
  | none => (p, none)
  | some t =>
    match t.action with
    | .render => renderBarcode h { p with timers := cancel (some id) p.timers }
    | .clearStatus =>
      ({ p with timers := cancel (some id) p.timers,
                statusEl := p.statusEl.map (fun _ => ⟨"status", ""⟩) }, none)

/-- How a click on the copy button ends (lines 127-144). -/
inductive CopyOutcome where
  | toBlobThrew
  | blobNull
  | written
  | writeFailed
deriving DecidableEq, Repr

/-- What can happen to the page after load: the registered listeners
(lines 92-144), timers firing, and direct calls of `showMessage` and
`renderBarcode`. -/
inductive Event where
  | textInput (value : String)
  | formatChange (value : String)
  | scaleInput (value : String)
  | includeChange (checked : Bool)
  | fgInput (value : String)
  | bgInput (value : String)
  | downloadClick (failed : Bool)
  | copyClick (outcome : CopyOutcome)
  | timerFires (id : Nat)
  | callShowMessage (msg type : String) (timeout : Nat)
  | callRenderBarcode
deriving DecidableEq, Repr

/-- One event; an exception that escapes a listener is reported by the browser
and the page carries on. -/
def step (h : Host) (e : Event) (p : Page) : Page :=
  match e with
  | .textInput v => debouncedRender { p with inputValue := v }
  | .formatChange v =>
    debouncedRender (setPlaceholderForFormat h { p with formatValue := v })
  | .scaleInput v => debouncedRender { p with scaleValue := v }
  | .includeChange b => debouncedRender { p with includeChecked := b }
  | .fgInput v => updateColorUI (debouncedRender { p with fgValue := v })
  | .bgInput v => updateColorUI (debouncedRender { p with bgValue := v })
  | .downloadClick failed =>
    if failed then (showMessage h p "Unable to download image." "error" 4000).1 else p
  | .copyClick .toBlobThrew => (showMessage h p "Copy failed" "error" 4000).1
  | .copyClick .blobNull => (showMessage h p "Copy failed" "error" 4000).1
  | .copyClick .written => (showMessage h p "Image copied to clipboard" "success" 1600).1
  | .copyClick .writeFailed =>
    (showMessage h p "Copy not supported in this browser" "info" 2500).1
  | .timerFires id => (timerFires h p id).1
  | .callShowMessage msg type timeout => (showMessage h p msg type timeout).1
  | .callRenderBarcode => (renderBarcode h p).1

/-- A sequence of events, in order. -/
def run (h : Host) (es : List Event) (p : Page) : Page :=
  es.foldl (fun q e => step h e q) p

/-- The states the page can be in: after load (whether or not the top-level code
ran to its end), and after any event. -/
inductive Reachable (h : Host) : Page → Prop where
  | loaded (document : Page) : Reachable h (scriptInit h (atLoad document)).1
  | step (e : Event) (p : Page) : Reachable h p → Reachable h (step h e p)

/-- The top-level code has run to its end and the status element exists. -/
def Ready (p : Page) : Prop :=
  p.statusEl.isSome = true ∧ p.msgTimer.isValue = true

/-- Identifiers of the pending timers that will call `renderBarcode`. -/
def pendingRender (p : Page) : List Nat :=
  (p.timers.filter (fun t => decide (t.action = .render))).map Timer.id

/-- The pending timers that will clear the status. -/
def pendingClear (p : Page) : List Timer :=
  p.timers.filter (fun t => decide (t.action = .clearStatus))

/-- Events whose listener calls `showMessage` directly. -/
def Event.callsShowMessage : Event → Bool
  | .downloadClick failed => failed
  | .copyClick _ => true
  | .callShowMessage _ _ _ => true
  | _ => false

/-- Events that run `renderBarcode` on page `p`: a direct call, or the firing of
a pending render timer. -/
def Event.runsRenderBarcode (p : Page) : Event → Bool
  | .callRenderBarcode => true
  | .timerFires id => decide (id ∈ pendingRender p)
  | _ => false

/-- Bookkeeping of the timer table that every reachable page satisfies:
identifiers are fresh and distinct, a pending render timer is the one
`renderTimer` names and has delay 220, a pending clearing timer is the one
`msgTimer` names, and the two variables never name the same timer. -/
structure TimersOk (p : Page) : Prop where
  fresh : ∀ t ∈ p.timers, t.id < p.nextTimerId
  nodup : (p.timers.map Timer.id).Nodup
  render : ∀ t ∈ p.timers, t.action = .render → p.renderTimer = some t.id ∧ t.delay = 220
  clear : ∀ t ∈ p.timers, t.action = .clearStatus → p.msgTimer = .value (some t.id)
  renderId : ∀ i, p.renderTimer = some i → i < p.nextTimerId
  msgId : ∀ i, p.msgTimer = .value (some i) → i < p.nextTimerId
  apart : ∀ i, p.renderTimer = some i → p.msgTimer ≠ .value (some i)

/-- How the status and the clearing timers go together: an error message has no
clearing timer pending, any other message has exactly one. -/
def StatusOk (p : Page) : Prop :=
  ∀ s, p.statusEl = some s →
    (s.className = "status show error" → pendingClear p = []) ∧
    (s.className ≠ "status" → s.className ≠ "status show error" →
      (pendingClear p).length = 1)

/-! ## Sample data -/

/-- A document with a status element, format `ean13` and an empty input. -/
def emptyDocument : Page :=
  { inputValue := "", placeholder := "", formatValue := "ean13", scaleValue := "3",
    includeChecked := true, fgValue := "#000000", bgValue := "#ffffff",
    canvas := ⟨[]⟩, statusEl := some ⟨"status", ""⟩,
    fgSwatch := some "", bgSwatch := some "", colorSample := some ("", ""),
    renderTimer := none, msgTimer := .uninitialised, timers := [], nextTimerId := 1,
    rendererCalls := [], renderRuns := 0, consoleErrors := [] }


/-- A renderer that draws one pixel per character of the text and rejects
`ean13` texts that are not all digits, a `parseInt` for one-digit scales, and
the native-code text of one engine. -/
def sampleHost : Host where
  toCanvas := fun _ _ o =>
    if o.bcid = "ean13" ∧ o.text.data.any (fun c => !isAsciiDigit c) then
      (⟨[]⟩, some ⟨some "bad character in ean13 text"⟩)
    else (⟨o.text.data.map Char.toNat⟩, none)
  parseInt := fun s =>
    match s.data with
    | [c] => if isAsciiDigit c then some (Int.ofNat (c.toNat - 48)) else none
    | _ => none
  nativeText := fun key =>
    if key = "__proto__" then "[object Object]"
    else if key = "constructor" then "function Object() \x7b [native code] \x7d"
    else "function " ++ key ++ "() \x7b [native code] \x7d"

/-- A document with a status element, format `ean13` and a restored input `123`. -/
def sampleDocument : Page :=
  { inputValue := "123", placeholder := "", formatValue := "ean13", scaleValue := "3",
    includeChecked := true, fgValue := "#000000", bgValue := "#ffffff",
    canvas := ⟨[]⟩, statusEl := some ⟨"status", ""⟩,
    fgSwatch := some "", bgSwatch := some "", colorSample := some ("", ""),
    renderTimer := none, msgTimer := .uninitialised, timers := [], nextTimerId := 1,
    rendererCalls := [], renderRuns := 0, consoleErrors := [] }

/-! ## Facts about strings -/

theorem isAsciiDigit_eq_isDigit (c : Char) : isAsciiDigit c = c.isDigit := by
  unfold isAsciiDigit Char.isDigit
  have h1 : (c.val ≥ 48) ↔ 48 ≤ c.toNat := by
    rw [ge_iff_le, UInt32.le_def]; rfl
  have h2 : (c.val ≤ 57) ↔ c.toNat ≤ 57 := by
    rw [UInt32.le_def]; rfl
  simp only [Bool.decide_eq_true, h1, h2]

theorem jsLength_filter_digits (l : List Char) :
    ((l.filter isAsciiDigit).map utf16Units).sum = l.countP Char.isDigit := by
  induction l with
  | nil => rfl
  | cons c cs ih =>
    by_cases hc : isAsciiDigit c = true
    · have hd : c.isDigit = true := by rw [← isAsciiDigit_eq_isDigit]; exact hc
      have hu : utf16Units c = 1 := by
        unfold isAsciiDigit at hc
        simp only [Bool.and_eq_true, decide_eq_true_eq] at hc
        unfold utf16Units
        rw [if_pos (by omega)]
      rw [List.filter_cons_of_pos hc, List.map_cons, List.sum_cons, ih, hu,
        List.countP_cons_of_pos _ _ hd]
      omega
    · have hd : ¬ c.isDigit = true := by rw [← isAsciiDigit_eq_isDigit]; exact hc
      rw [List.filter_cons_of_neg hc, ih, List.countP_cons_of_neg _ _ hd]

theorem jsLength_stripNonDigits (t : String) :
    jsLength (stripNonDigits t) = digitCount t :=
  jsLength_filter_digits t.data

theorem jsLength_all_digits (t : String) (hall : ∀ c ∈ t.data, c.isDigit = true) :
    jsLength t = digitCount t := by
  have hfil : t.data.filter isAsciiDigit = t.data :=
    List.filter_eq_self.2 (fun c hc => by rw [isAsciiDigit_eq_isDigit]; exact hall c hc)
  unfold jsLength digitCount
  rw [← jsLength_filter_digits, hfil]

/-! ## Validation (C1, C2, C3) -/

theorem validate_ok_nonempty (f t : String) (h : (validateForFormat f t).ok = true) :
    t ≠ "" := by
  intro ht
  rw [ht] at h
  exact Bool.noConfusion h

theorem validate_ean13_count (t : String) (h : (validateForFormat "ean13" t).ok = true) :
    digitCount t = 12 ∨ digitCount t = 13 := by
  rw [← jsLength_stripNonDigits]
  by_cases hn : jsLength (stripNonDigits t) ≠ 12 ∧ jsLength (stripNonDigits t) ≠ 13
  · exfalso
    have ht := validate_ok_nonempty "ean13" t h
    unfold validateForFormat at h
    rw [if_neg ht, if_pos ⟨rfl, hn⟩] at h
    exact Bool.noConfusion h
  · omega

/-- C1: `validateForFormat(f, t).ok` holds exactly when `t` is non-empty, has 12 or
13 ASCII digits if `f` is `ean13`, and has 11 or 12 ASCII digits if `f` is `upca`;
in particular every non-empty text is accepted for every other format. -/
theorem validateForFormat_ok_iff (f t : String) :
    ((validateForFormat f t).ok = true ↔
      (t ≠ "" ∧ (f = "ean13" → digitCount t = 12 ∨ digitCount t = 13) ∧
        (f = "upca" → digitCount t = 11 ∨ digitCount t = 12))) ∧
    (f ≠ "ean13" → f ≠ "upca" → ((validateForFormat f t).ok = true ↔ t ≠ "")) := by
  have key : (validateForFormat f t).ok = true ↔
      (t ≠ "" ∧ (f = "ean13" → digitCount t = 12 ∨ digitCount t = 13) ∧
        (f = "upca" → digitCount t = 11 ∨ digitCount t = 12)) := by
    unfold validateForFormat
    rw [jsLength_stripNonDigits]
    by_cases ht : t = ""
    · simp [ht]
    · by_cases he : f = "ean13"
      · subst he
        by_cases hn : digitCount t ≠ 12 ∧ digitCount t ≠ 13
        · simp [ht, hn]
        · have hu : ¬ ("ean13" = "upca") := by decide
          have hn2 : digitCount t = 12 ∨ digitCount t = 13 := by omega
          simp [ht, hn, hu, hn2]
      · by_cases hu : f = "upca"
        · subst hu
          by_cases hn : digitCount t ≠ 11 ∧ digitCount t ≠ 12
          · simp [ht, hn, he]
          · have hn2 : digitCount t = 11 ∨ digitCount t = 12 := by omega
            simp [ht, hn, he, hn2]
        · simp [ht, he, hu]
  refine ⟨key, fun he hu => ?_⟩
  rw [key]
  constructor
  · exact fun h => h.1
  · exact fun h => ⟨h, fun h1 => absurd h1 he, fun h1 => absurd h1 hu⟩

/-- C2, as stated, fails: `0123-4567-8901` is accepted for `ean13` although it
contains characters that are not digits and has length 14. -/
theorem ean13_accepts_text_with_separators :
    ¬ (∀ t : String, (validateForFormat "ean13" t).ok = true →
        (∀ c ∈ t.data, c.isDigit = true) ∧ (jsLength t = 12 ∨ jsLength t = 13)) := by
  intro h
  have h1 := (h "0123-4567-8901" (by decide)).2
  revert h1
  decide

/-- C2 (amended): a text accepted for `ean13` is non-empty and contains 12 or 13
ASCII digits (other characters are not counted); if all of its characters are
digits its length is 12 or 13. -/
theorem ean13_accepted_digit_count (t : String)
    (h : (validateForFormat "ean13" t).ok = true) :
    t ≠ "" ∧ (digitCount t = 12 ∨ digitCount t = 13) ∧
      ((∀ c ∈ t.data, c.isDigit = true) → jsLength t = 12 ∨ jsLength t = 13) := by
  refine ⟨validate_ok_nonempty "ean13" t h, validate_ean13_count t h, fun hall => ?_⟩
  rw [jsLength_all_digits t hall]
  exact validate_ean13_count t h

theorem ean13_accepted_digit_count_witness :
    "012345678901" ≠ "" ∧ (digitCount "012345678901" = 12 ∨ digitCount "012345678901" = 13) ∧
      ((∀ c ∈ "012345678901".data, c.isDigit = true) →
        jsLength "012345678901" = 12 ∨ jsLength "012345678901" = 13) :=
  ean13_accepted_digit_count "012345678901" (by decide)

/-- C3: the empty text is rejected with `Please enter text to encode.` for every
format; the two digit-count messages are returned only for non-empty rejected
texts of `ean13` and `upca` respectively (and are returned for all of those); an
accepting result carries no message. -/
theorem validateForFormat_messages (f t : String) :
    validateForFormat f "" = ⟨false, some "Please enter text to encode."⟩ ∧
    ((validateForFormat f t).msg =
        some "EAN-13 requires 12 or 13 digits (12 digits will auto-calc check digit)." ↔
      (t ≠ "" ∧ f = "ean13" ∧ (validateForFormat f t).ok = false)) ∧
    ((validateForFormat f t).msg = some "UPC-A requires 11 or 12 digits." ↔
      (t ≠ "" ∧ f = "upca" ∧ (validateForFormat f t).ok = false)) ∧
    ((validateForFormat f t).ok = true → (validateForFormat f t).msg = none) := by
  have e1 : ¬ (msgEnterText = msgEan13) := by decide
  have e2 : ¬ (msgEnterText = msgUpca) := by decide
  have e3 : ¬ (msgEan13 = msgUpca) := by decide
  have e4 : ¬ (msgUpca = msgEan13) := by decide
  have e5 : ¬ ("ean13" = "upca") := by decide
  have e6 : ¬ ("upca" = "ean13") := by decide
  have m1 : "EAN-13 requires 12 or 13 digits (12 digits will auto-calc check digit)." = msgEan13 :=
    rfl
  have m2 : "UPC-A requires 11 or 12 digits." = msgUpca := rfl
  rw [m1, m2]
  refine ⟨rfl, ?_, ?_, ?_⟩
  all_goals
    unfold validateForFormat
    by_cases ht : t = ""
    · simp [ht, e1, e2]
    · by_cases he : f = "ean13"
      · subst he
        by_cases hn : jsLength (stripNonDigits t) ≠ 12 ∧ jsLength (stripNonDigits t) ≠ 13
        · simp [ht, hn, e3, e5]
        · simp [ht, hn, e3, e4, e5, e6]
      · by_cases hu : f = "upca"
        · subst hu
          by_cases hn : jsLength (stripNonDigits t) ≠ 11 ∧ jsLength (stripNonDigits t) ≠ 12
          · simp [ht, hn, e3, e4, e5, e6]
          · simp [ht, hn, e3, e4, e5, e6]
        · simp [ht, he, hu]

/-! ## One run of `renderBarcode` (C4, C5, C8, C10) -/

theorem renderBarcode_invalid (h : Host) (p : Page)
    (hf : (validateForFormat p.formatValue (renderText p)).ok = false) :
    renderBarcode h p =
      showMessage h (entered p)
        ((validateForFormat p.formatValue (renderText p)).msg.getD "undefined") "error" 4000 := by
  show (if (validateForFormat p.formatValue (renderText p)).ok = false then _ else _) = _
  rw [if_pos hf]
  rfl

theorem renderBarcode_valid (h : Host) (p : Page)
    (hv : (validateForFormat p.formatValue (renderText p)).ok = true) :
    renderBarcode h p =
      match (h.toCanvas p.rendererCalls p.canvas (renderOptions h p)).2 with
      | none => (delegated h p, none)
      | some err =>
        showMessage h { delegated h p with consoleErrors := p.consoleErrors ++ [err] }
          (renderErrorMessage err) "error" 4000 := by
  have hn : ¬ (validateForFormat p.formatValue (renderText p)).ok = false := by
    rw [hv]; decide
  show (if (validateForFormat p.formatValue (renderText p)).ok = false then _ else _) = _
  rw [if_neg hn]
  rfl

theorem showMessage_keeps (h : Host) (p : Page) (msg type : String) (timeout : Nat) :
    (showMessage h p msg type timeout).1.rendererCalls = p.rendererCalls ∧
    (showMessage h p msg type timeout).1.canvas = p.canvas ∧
    (showMessage h p msg type timeout).1.renderRuns = p.renderRuns ∧
    (showMessage h p msg type timeout).1.renderTimer = p.renderTimer := by
  unfold showMessage
  cases p.statusEl with
  | none => exact ⟨rfl, rfl, rfl, rfl⟩
  | some s =>
    cases p.msgTimer with
    | uninitialised => exact ⟨rfl, rfl, rfl, rfl⟩
    | value mt =>
      cases mt with
      | none => by_cases ht : type = "error" <;> simp [ht, clearTimeout, setTimeout]
      | some i => by_cases ht : type = "error" <;> simp [ht, clearTimeout, setTimeout]

theorem showMessage_error_status (h : Host) (p : Page) (msg : String) (s : StatusEl) (mt : Option Nat)
    (hs : p.statusEl = some s) (hm : p.msgTimer = .value mt) :
    (showMessage h p msg "error" 4000).1.statusEl =
        some ⟨"status show error", statusMarkup h msg "error"⟩ ∧
    (showMessage h p msg "error" 4000).2 = none := by
  unfold showMessage
  rw [hs, hm]
  cases mt <;> exact ⟨rfl, rfl⟩

theorem showMessage_no_status (h : Host) (p : Page) (msg type : String) (timeout : Nat)
    (hs : p.statusEl = none) : showMessage h p msg type timeout = (p, none) := by
  unfold showMessage
  rw [hs]

theorem validateForFormat_rejects_with_msg (f t : String)
    (hf : (validateForFormat f t).ok = false) :
    (validateForFormat f t).msg = some msgEnterText ∧ t = "" ∨
    (validateForFormat f t).msg = some msgEan13 ∧ t ≠ "" ∨
    (validateForFormat f t).msg = some msgUpca ∧ t ≠ "" := by
  revert hf
  unfold validateForFormat
  split_ifs with h1 h2 h3
  · intro _; exact Or.inl ⟨rfl, h1⟩
  · intro _; exact Or.inr (Or.inl ⟨rfl, h1⟩)
  · intro _; exact Or.inr (Or.inr ⟨rfl, h1⟩)
  · intro hf; exact absurd hf (by decide)

/-- The markup of an error message: the error icon of line 157, then the message
in its span. -/
theorem statusMarkup_error (h : Host) (msg : String) :
    statusMarkup h msg "error" =
      "<svg class=\"icon\" viewBox=\"0 0 24 24\" fill=\"none\" xmlns=\"http://www.w3.org/2000/svg\"><path d=\"M12 9v4\" stroke=\"currentColor\" stroke-width=\"2\" stroke-linecap=\"round\" stroke-linejoin=\"round\"/><path d=\"M12 17h.01\" stroke=\"currentColor\" stroke-width=\"2\" stroke-linecap=\"round\" stroke-linejoin=\"round\"/><path d=\"M10.29 3.86l-7 12A2 2 0 0 0 5 19h14a2 2 0 0 0 1.71-3.14l-7-12a2 2 0 0 0-3.42 0z\" stroke=\"currentColor\" stroke-width=\"0\"/></svg>" ++
        "<span class=\"msg\">" ++ msg ++ "</span>" := by
  have hg : getProp icons "error" = .str "<svg class=\"icon\" viewBox=\"0 0 24 24\" fill=\"none\" xmlns=\"http://www.w3.org/2000/svg\"><path d=\"M12 9v4\" stroke=\"currentColor\" stroke-width=\"2\" stroke-linecap=\"round\" stroke-linejoin=\"round\"/><path d=\"M12 17h.01\" stroke=\"currentColor\" stroke-width=\"2\" stroke-linecap=\"round\" stroke-linejoin=\"round\"/><path d=\"M10.29 3.86l-7 12A2 2 0 0 0 5 19h14a2 2 0 0 0 1.71-3.14l-7-12a2 2 0 0 0-3.42 0z\" stroke=\"currentColor\" stroke-width=\"0\"/></svg>" := by
    rfl
  unfold statusMarkup getPropOr
  rw [hg]
  have ht : (PropVal.str "<svg class=\"icon\" viewBox=\"0 0 24 24\" fill=\"none\" xmlns=\"http://www.w3.org/2000/svg\"><path d=\"M12 9v4\" stroke=\"currentColor\" stroke-width=\"2\" stroke-linecap=\"round\" stroke-linejoin=\"round\"/><path d=\"M12 17h.01\" stroke=\"currentColor\" stroke-width=\"2\" stroke-linecap=\"round\" stroke-linejoin=\"round\"/><path d=\"M10.29 3.86l-7 12A2 2 0 0 0 5 19h14a2 2 0 0 0 1.71-3.14l-7-12a2 2 0 0 0-3.42 0z\" stroke=\"currentColor\" stroke-width=\"0\"/></svg>").truthy = true := by
    rfl
  simp only [ht, if_true, PropVal.toStr]

theorem renderBarcode_calls_of_valid (h : Host) (p : Page)
    (hv : (validateForFormat p.formatValue (renderText p)).ok = true) :
    (renderBarcode h p).1.rendererCalls = p.rendererCalls ++ [renderOptions h p] := by
  rw [renderBarcode_valid h p hv]
  cases (h.toCanvas p.rendererCalls p.canvas (renderOptions h p)).2 with
  | none => rfl
  | some err => exact (showMessage_keeps h _ _ _ _).1

/-- C4, as stated, fails: on a page without a status element a text that fails
validation leaves nothing that shows the validation message. -/
theorem renderBarcode_invalid_without_status_element :
    (validateForFormat "ean13" (renderText { sampleDocument with statusEl := none })).ok = false ∧
    (renderBarcode sampleHost { sampleDocument with statusEl := none }).1.statusEl = none := by
  decide

/-- C4 (amended): `renderBarcode` invokes the renderer exactly when the text and
format read from the form pass `validateForFormat`, once, with that text as `text`
and that format as `bcid`; when validation fails the renderer is not invoked and
the canvas is unchanged, and the status shows the validation message with type
`error` provided the status element exists and the top-level code has run to its
end; without a status element nothing is shown. -/
theorem renderBarcode_flow (h : Host) (p : Page) :
    ((validateForFormat p.formatValue (renderText p)).ok = true ↔
      (renderBarcode h p).1.rendererCalls = p.rendererCalls ++ [renderOptions h p]) ∧
    ((validateForFormat p.formatValue (renderText p)).ok = false ↔
      (renderBarcode h p).1.rendererCalls = p.rendererCalls) ∧
    (renderOptions h p).text = renderText p ∧
    (renderOptions h p).bcid = p.formatValue ∧
    ((validateForFormat p.formatValue (renderText p)).ok = false →
      (renderBarcode h p).1.canvas = p.canvas) ∧
    ((validateForFormat p.formatValue (renderText p)).ok = false →
      ∀ s mt, p.statusEl = some s → p.msgTimer = .value mt →
        ∃ m, (validateForFormat p.formatValue (renderText p)).msg = some m ∧
          (renderBarcode h p).1.statusEl = some ⟨"status show error",
            "<svg class=\"icon\" viewBox=\"0 0 24 24\" fill=\"none\" xmlns=\"http://www.w3.org/2000/svg\"><path d=\"M12 9v4\" stroke=\"currentColor\" stroke-width=\"2\" stroke-linecap=\"round\" stroke-linejoin=\"round\"/><path d=\"M12 17h.01\" stroke=\"currentColor\" stroke-width=\"2\" stroke-linecap=\"round\" stroke-linejoin=\"round\"/><path d=\"M10.29 3.86l-7 12A2 2 0 0 0 5 19h14a2 2 0 0 0 1.71-3.14l-7-12a2 2 0 0 0-3.42 0z\" stroke=\"currentColor\" stroke-width=\"0\"/></svg>" ++
            "<span class=\"msg\">" ++ m ++ "</span>"⟩) ∧
    ((validateForFormat p.formatValue (renderText p)).ok = false →
      p.statusEl = none → (renderBarcode h p).1.statusEl = none) := by
  by_cases hv : (validateForFormat p.formatValue (renderText p)).ok = true
  · have hcalls := renderBarcode_calls_of_valid h p hv
    refine ⟨⟨fun _ => hcalls, fun _ => hv⟩, ⟨fun hf => ?_, fun hc => ?_⟩, rfl, rfl, ?_, ?_, ?_⟩
    · rw [hv] at hf; exact absurd hf (by decide)
    · rw [hcalls] at hc
      have := congrArg List.length hc
      simp at this
    · intro hf; rw [hv] at hf; exact absurd hf (by decide)
    · intro hf; rw [hv] at hf; exact absurd hf (by decide)
    · intro hf; rw [hv] at hf; exact absurd hf (by decide)
  · have hf : (validateForFormat p.formatValue (renderText p)).ok = false := by
      simpa using hv
    have hrun := renderBarcode_invalid h p hf
    have hcalls : (renderBarcode h p).1.rendererCalls = p.rendererCalls := by
      rw [hrun]; exact (showMessage_keeps h _ _ _ _).1
    refine ⟨⟨fun ht => absurd ht hv, fun hc => ?_⟩, ⟨fun _ => hcalls, fun _ => hf⟩, rfl, rfl,
      ?_, ?_, ?_⟩
    · rw [hcalls] at hc
      have := congrArg List.length hc
      simp at this
    · intro _
      rw [hrun]; exact (showMessage_keeps h _ _ _ _).2.1
    · intro _ s mt hs hm
      have hmsg : ∃ m, (validateForFormat p.formatValue (renderText p)).msg = some m := by
        rcases validateForFormat_rejects_with_msg _ _ hf with h1 | h1 | h1
        · exact ⟨_, h1.1⟩
        · exact ⟨_, h1.1⟩
        · exact ⟨_, h1.1⟩
      obtain ⟨m, hm1⟩ := hmsg
      refine ⟨m, hm1, ?_⟩
      rw [hrun, hm1, ← statusMarkup_error h m]
      exact (showMessage_error_status h (entered p) m s mt hs hm).1
    · intro _ hs
      rw [hrun, showMessage_no_status h (entered p) _ _ _ hs]
      exact hs

/-- C5: with the status element present and the top-level code run to its end,
when the form passes validation and the renderer throws, `renderBarcode` raises
nothing, has invoked the renderer once, and leaves the status in the class
`status show error` with the thrown value's message if it has a non-empty one
and `Failed to render barcode.` otherwise. -/
theorem renderBarcode_renderer_throws (h : Host) (p : Page) (s : StatusEl) (mt : Option Nat)
    (err : JsError)
    (hs : p.statusEl = some s) (hm : p.msgTimer = .value mt)
    (hv : (validateForFormat p.formatValue (renderText p)).ok = true)
    (hthrow : (h.toCanvas p.rendererCalls p.canvas (renderOptions h p)).2 = some err) :
    (renderBarcode h p).2 = none ∧
    (renderBarcode h p).1.rendererCalls = p.rendererCalls ++ [renderOptions h p] ∧
    (∀ m, err.message = some m → m ≠ "" →
      (renderBarcode h p).1.statusEl = some ⟨"status show error",
            "<svg class=\"icon\" viewBox=\"0 0 24 24\" fill=\"none\" xmlns=\"http://www.w3.org/2000/svg\"><path d=\"M12 9v4\" stroke=\"currentColor\" stroke-width=\"2\" stroke-linecap=\"round\" stroke-linejoin=\"round\"/><path d=\"M12 17h.01\" stroke=\"currentColor\" stroke-width=\"2\" stroke-linecap=\"round\" stroke-linejoin=\"round\"/><path d=\"M10.29 3.86l-7 12A2 2 0 0 0 5 19h14a2 2 0 0 0 1.71-3.14l-7-12a2 2 0 0 0-3.42 0z\" stroke=\"currentColor\" stroke-width=\"0\"/></svg>" ++
            "<span class=\"msg\">" ++ m ++ "</span>"⟩) ∧
    ((err.message = none ∨ err.message = some "") →
      (renderBarcode h p).1.statusEl = some ⟨"status show error",
            "<svg class=\"icon\" viewBox=\"0 0 24 24\" fill=\"none\" xmlns=\"http://www.w3.org/2000/svg\"><path d=\"M12 9v4\" stroke=\"currentColor\" stroke-width=\"2\" stroke-linecap=\"round\" stroke-linejoin=\"round\"/><path d=\"M12 17h.01\" stroke=\"currentColor\" stroke-width=\"2\" stroke-linecap=\"round\" stroke-linejoin=\"round\"/><path d=\"M10.29 3.86l-7 12A2 2 0 0 0 5 19h14a2 2 0 0 0 1.71-3.14l-7-12a2 2 0 0 0-3.42 0z\" stroke=\"currentColor\" stroke-width=\"0\"/></svg>" ++
            "<span class=\"msg\">" ++ "Failed to render barcode." ++ "</span>"⟩) := by
  have hrun := renderBarcode_valid h p hv
  rw [hthrow] at hrun
  have hshow := showMessage_error_status h
    { delegated h p with consoleErrors := p.consoleErrors ++ [err] }
    (renderErrorMessage err) ⟨"status", ""⟩ mt (by simp [delegated, hs]) hm
  refine ⟨?_, renderBarcode_calls_of_valid h p hv, ?_, ?_⟩
  · rw [hrun]; exact hshow.2
  · intro m hmsg hne
    have hmm : renderErrorMessage err = m := by simp [renderErrorMessage, hmsg, hne]
    rw [hrun, ← statusMarkup_error h m, ← hmm]
    exact hshow.1
  · intro hmsg
    have hmm : renderErrorMessage err = "Failed to render barcode." := by
      rcases hmsg with hmsg | hmsg <;> simp [renderErrorMessage, hmsg]
    rw [hrun, ← statusMarkup_error h "Failed to render barcode.", ← hmm]
    exact hshow.1

theorem renderBarcode_renderer_throws_witness :
    (renderBarcode sampleHost
      { sampleDocument with inputValue := "0123-4567-8901", msgTimer := .value none }).2 = none :=
  (renderBarcode_renderer_throws sampleHost
    { sampleDocument with inputValue := "0123-4567-8901", msgTimer := .value none }
    ⟨"status", ""⟩ none ⟨some "bad character in ean13 text"⟩ rfl rfl (by decide) (by decide)).1

theorem dropWhile_all (l : List Char) (hl : ∀ c ∈ l, isJsWhiteSpace c = true) :
    l.dropWhile isJsWhiteSpace = [] := by
  rw [List.dropWhile_eq_nil_iff]
  exact hl

theorem trim_whitespace_only (v : String) (hv : ∀ c ∈ v.data, isJsWhiteSpace c = true) :
    trim v = "" := by
  unfold trim
  rw [dropWhile_all v.data hv]
  rfl

theorem examples_all_valid :
    examples.all (fun fe => (validateForFormat fe.1 fe.2).ok) = true := by
  decide

theorem validateForFormat_accepts (f t : String) (hv : (validateForFormat f t).ok = true) :
    validateForFormat f t = ⟨true, none⟩ := by
  revert hv
  unfold validateForFormat
  split_ifs <;> simp

/-- C8: every entry of `examples` passes validation for its own format; so when
the input is empty or only white space and the placeholder is the example of
the selected, listed format, validation raises no message and the renderer is
invoked, once, with that example as text. -/
theorem examples_pass_validation (h : Host) (p : Page) (f e : String) :
    ((f, e) ∈ examples → (validateForFormat f e).ok = true) ∧
    ((f, e) ∈ examples → p.formatValue = f → p.placeholder = e →
      (∀ c ∈ p.inputValue.data, isJsWhiteSpace c = true) →
        renderText p = e ∧
        validateForFormat p.formatValue (renderText p) = ⟨true, none⟩ ∧
        (renderBarcode h p).1.rendererCalls = p.rendererCalls ++ [renderOptions h p] ∧
        (renderOptions h p).text = e ∧ (renderOptions h p).bcid = f) := by
  have hex : (f, e) ∈ examples → (validateForFormat f e).ok = true := by
    intro hmem
    have hall := examples_all_valid
    rw [List.all_eq_true] at hall
    exact hall (f, e) hmem
  refine ⟨hex, fun hmem hf hp hws => ?_⟩
  have hok := hex hmem
  have hne : e ≠ "" := validate_ok_nonempty f e hok
  have htext : renderText p = e := by
    unfold renderText
    rw [trim_whitespace_only p.inputValue hws, hp]
    simp [hne]
  have hv : (validateForFormat p.formatValue (renderText p)).ok = true := by
    rw [htext, hf]; exact hok
  refine ⟨htext, validateForFormat_accepts _ _ hv, renderBarcode_calls_of_valid h p hv, ?_, ?_⟩
  · exact htext
  · exact hf

theorem getPropOr_ne_empty (native : String → String) (own : List (String × String))
    (key fallback : String) (hf : fallback ≠ "") (hk : key ∉ objectPrototypeKeys) :
    getPropOr native own key fallback ≠ "" := by
  unfold getPropOr getProp
  cases hl : own.lookup key with
  | none =>
    simp only [if_neg hk, PropVal.truthy]
    exact hf
  | some e =>
    by_cases he : e = ""
    · simpa [PropVal.truthy, he] using hf
    · simp [PropVal.truthy, PropVal.toStr, he]

theorem lookup_of_mem_examples (f e : String) (hmem : (f, e) ∈ examples) :
    examples.lookup f = some e := by
  have hall : examples.all (fun fe => decide (examples.lookup fe.1 = some fe.2)) = true := by
    decide
  rw [List.all_eq_true] at hall
  simpa using hall (f, e) hmem

theorem lookup_none_of_not_mem {β : Type} (l : List (String × β)) (k : String)
    (hk : k ∉ l.map Prod.fst) : l.lookup k = none := by
  induction l with
  | nil => rfl
  | cons a l ih =>
    obtain ⟨a1, a2⟩ := a
    simp only [List.map_cons, List.mem_cons, not_or] at hk
    have hne : (k == a1) = false := by simpa using hk.1
    rw [List.lookup_cons, hne]
    exact ih hk.2

/-- C10: for every value the format control can hold, after
`setPlaceholderForFormat` the placeholder is non-empty: the example of a listed
format, `Enter text or digits` otherwise.  So for every input value the text
`renderBarcode` validates is non-empty (the trimmed input if that is non-empty,
the placeholder otherwise), validation never answers `Please enter text to
encode.`, and a failed validation shows one of the two digit-count messages. -/
theorem placeholder_nonempty (h : Host) (p : Page) (v : String)
    (hfmt : FormatValue p.formatValue) :
    (setPlaceholderForFormat h p).placeholder ≠ "" ∧
    (∀ e, (p.formatValue, e) ∈ examples → (setPlaceholderForFormat h p).placeholder = e) ∧
    (p.formatValue ∉ examples.map Prod.fst →
      (setPlaceholderForFormat h p).placeholder = "Enter text or digits") ∧
    renderText { setPlaceholderForFormat h p with inputValue := v } ≠ "" ∧
    renderText { setPlaceholderForFormat h p with inputValue := v } =
      (if trim v ≠ "" then trim v else (setPlaceholderForFormat h p).placeholder) ∧
    (validateForFormat p.formatValue
      (renderText { setPlaceholderForFormat h p with inputValue := v })).msg ≠
        some "Please enter text to encode." ∧
    ((validateForFormat p.formatValue
        (renderText { setPlaceholderForFormat h p with inputValue := v })).ok = false →
      ∃ m, (m = "EAN-13 requires 12 or 13 digits (12 digits will auto-calc check digit)." ∨
          m = "UPC-A requires 11 or 12 digits.") ∧
        renderBarcode h { setPlaceholderForFormat h p with inputValue := v } =
          showMessage h (entered { setPlaceholderForFormat h p with inputValue := v }) m
            "error" 4000) := by
  have hph : (setPlaceholderForFormat h p).placeholder ≠ "" :=
    getPropOr_ne_empty h.nativeText examples p.formatValue "Enter text or digits"
      (by decide) hfmt
  have htext : renderText { setPlaceholderForFormat h p with inputValue := v } =
      (if trim v ≠ "" then trim v else (setPlaceholderForFormat h p).placeholder) := by
    show (if trim v ≠ "" then trim v
      else if (setPlaceholderForFormat h p).placeholder ≠ "" then
        (setPlaceholderForFormat h p).placeholder else "") = _
    rw [if_pos hph]
  have hne : renderText { setPlaceholderForFormat h p with inputValue := v } ≠ "" := by
    rw [htext]
    by_cases ht : trim v ≠ ""
    · rw [if_pos ht]; exact ht
    · rw [if_neg ht]; exact hph
  have e1 : ¬ (msgEan13 = msgEnterText) := by decide
  have e2 : ¬ (msgUpca = msgEnterText) := by decide
  refine ⟨hph, ?_, ?_, hne, htext, ?_, ?_⟩
  · intro e hmem
    show getPropOr h.nativeText examples p.formatValue "Enter text or digits" = e
    have hall := examples_all_valid
    rw [List.all_eq_true] at hall
    have hok : (validateForFormat p.formatValue e).ok = true := hall (p.formatValue, e) hmem
    have hne2 : e ≠ "" := validate_ok_nonempty p.formatValue e hok
    unfold getPropOr getProp
    rw [lookup_of_mem_examples _ _ hmem]
    simp [PropVal.truthy, PropVal.toStr, hne2]
  · intro h1
    show getPropOr h.nativeText examples p.formatValue "Enter text or digits" = _
    unfold getPropOr getProp
    rw [lookup_none_of_not_mem _ _ h1, if_neg hfmt]
    simp [PropVal.truthy]
  · cases hok : (validateForFormat p.formatValue
        (renderText { setPlaceholderForFormat h p with inputValue := v })).ok with
    | true => rw [validateForFormat_accepts _ _ hok]; simp
    | false =>
      rcases validateForFormat_rejects_with_msg _ _ hok with h1 | h1 | h1
      · exact absurd h1.2 hne
      · rw [h1.1]; intro hc; exact e1 (Option.some.inj hc)
      · rw [h1.1]; intro hc; exact e2 (Option.some.inj hc)
  · intro hf
    have hrun := renderBarcode_invalid h { setPlaceholderForFormat h p with inputValue := v } hf
    rcases validateForFormat_rejects_with_msg _ _ hf with h1 | h1 | h1
    · exact absurd h1.2 hne
    · refine ⟨msgEan13, Or.inl rfl, ?_⟩
      rw [hrun]
      have h2 : (validateForFormat p.formatValue
        (renderText { setPlaceholderForFormat h p with inputValue := v })).msg = some msgEan13 :=
        h1.1
      simp only [setPlaceholderForFormat] at h2 ⊢
      rw [h2]; rfl
    · refine ⟨msgUpca, Or.inr rfl, ?_⟩
      rw [hrun]
      have h2 : (validateForFormat p.formatValue
        (renderText { setPlaceholderForFormat h p with inputValue := v })).msg = some msgUpca :=
        h1.1
      simp only [setPlaceholderForFormat] at h2 ⊢
      rw [h2]; rfl

theorem placeholder_nonempty_witness :
    (setPlaceholderForFormat sampleHost sampleDocument).placeholder ≠ "" ∧
    renderText { setPlaceholderForFormat sampleHost sampleDocument with inputValue := "  " } ≠ "" :=
  have hall := placeholder_nonempty sampleHost sampleDocument "  "
    (by show "ean13" ∉ objectPrototypeKeys; decide)
  ⟨hall.1, hall.2.2.2.1⟩

/-! ## Timer bookkeeping -/

theorem TimersOk.transfer {p q : Page} (hp : TimersOk p) (h1 : q.timers = p.timers)
    (h2 : q.nextTimerId = p.nextTimerId) (h3 : q.renderTimer = p.renderTimer)
    (h4 : q.msgTimer = p.msgTimer) : TimersOk q := by
  constructor
  · rw [h1, h2]; exact hp.fresh
  · rw [h1]; exact hp.nodup
  · rw [h1, h3]; exact hp.render
  · rw [h1, h4]; exact hp.clear
  · rw [h2, h3]; exact hp.renderId
  · rw [h2, h4]; exact hp.msgId
  · rw [h3, h4]; exact hp.apart

theorem cancel_sublist (o : Option Nat) (ts : List Timer) : (cancel o ts).Sublist ts := by
  cases o with
  | none => exact List.Sublist.refl ts
  | some i => exact List.filter_sublist ts

theorem mem_of_mem_cancel {o : Option Nat} {ts : List Timer} {t : Timer}
    (ht : t ∈ cancel o ts) : t ∈ ts :=
  (cancel_sublist o ts).subset ht

theorem id_ne_of_mem_cancel {i : Nat} {ts : List Timer} {t : Timer}
    (ht : t ∈ cancel (some i) ts) : t.id ≠ i := by
  unfold cancel at ht
  simpa using (List.mem_filter.1 ht).2

/-- Removing timers from the table keeps the bookkeeping. -/
theorem TimersOk.sub {p q : Page} (hp : TimersOk p) (h1 : q.timers.Sublist p.timers)
    (h2 : q.nextTimerId = p.nextTimerId) (h3 : q.renderTimer = p.renderTimer)
    (h4 : q.msgTimer = p.msgTimer) : TimersOk q := by
  constructor
  · intro t ht; rw [h2]; exact hp.fresh t (h1.subset ht)
  · exact (h1.map Timer.id).nodup hp.nodup
  · intro t ht; rw [h3]; exact hp.render t (h1.subset ht)
  · intro t ht; rw [h4]; exact hp.clear t (h1.subset ht)
  · rw [h2, h3]; exact hp.renderId
  · rw [h2, h4]; exact hp.msgId
  · rw [h3, h4]; exact hp.apart

theorem debouncedRender_fields (p : Page) :
    (debouncedRender p).timers =
      cancel p.renderTimer p.timers ++ [⟨p.nextTimerId, 220, .render⟩] ∧
    (debouncedRender p).nextTimerId = p.nextTimerId + 1 ∧
    (debouncedRender p).renderTimer = some p.nextTimerId ∧
    (debouncedRender p).msgTimer = p.msgTimer ∧
    (debouncedRender p).statusEl = p.statusEl ∧
    (debouncedRender p).renderRuns = p.renderRuns :=
  ⟨rfl, rfl, rfl, rfl, rfl, rfl⟩

theorem timersOk_debouncedRender {p : Page} (hp : TimersOk p) :
    TimersOk (debouncedRender p) := by
  obtain ⟨e1, e2, e3, e4, _, _⟩ := debouncedRender_fields p
  constructor
  · intro t ht
    rw [e1, List.mem_append, List.mem_singleton] at ht
    rw [e2]
    rcases ht with ht | ht
    · exact Nat.lt_succ_of_lt (hp.fresh t (mem_of_mem_cancel ht))
    · rw [ht]; exact Nat.lt_succ_self _
  · rw [e1, List.map_append, List.nodup_append]
    refine ⟨((cancel_sublist _ _).map Timer.id).nodup hp.nodup, List.nodup_singleton _, ?_⟩
    intro i hi hi2
    rw [List.map_singleton, List.mem_singleton] at hi2
    obtain ⟨t, ht, hti⟩ := List.mem_map.1 hi
    have := hp.fresh t (mem_of_mem_cancel ht)
    rw [hti, hi2] at this
    exact Nat.lt_irrefl _ this
  · intro t ht hact
    rw [e1, List.mem_append, List.mem_singleton] at ht
    rw [e3]
    rcases ht with ht | ht
    · exfalso
      have hold := (hp.render t (mem_of_mem_cancel ht) hact).1
      rw [hold] at ht
      exact id_ne_of_mem_cancel ht rfl
    · rw [ht]; exact ⟨rfl, rfl⟩
  · intro t ht hact
    rw [e1, List.mem_append, List.mem_singleton] at ht
    rw [e4]
    rcases ht with ht | ht
    · exact hp.clear t (mem_of_mem_cancel ht) hact
    · rw [ht] at hact; exact TimerAction.noConfusion hact
  · intro i hi
    rw [e3] at hi
    rw [e2, ← Option.some.inj hi]
    exact Nat.lt_succ_self _
  · intro i hi
    rw [e4] at hi
    rw [e2]
    exact Nat.lt_succ_of_lt (hp.msgId i hi)
  · intro i hi hm
    rw [e3] at hi
    rw [e4] at hm
    have := hp.msgId i hm
    rw [← Option.some.inj hi] at this
    exact Nat.lt_irrefl _ this

theorem showMessage_ready (h : Host) (p : Page) (msg type : String) (timeout : Nat) (s : StatusEl)
    (mt : Option Nat) (hs : p.statusEl = some s) (hm : p.msgTimer = .value mt) :
    showMessage h p msg type timeout =
      if type = "error" then
        ({ p with timers := cancel mt p.timers,
                  statusEl := some ⟨statusClass type, statusMarkup h msg type⟩ }, none)
      else
        ({ p with timers := cancel mt p.timers ++
                    [⟨p.nextTimerId, if timeout = 0 then 3000 else timeout, .clearStatus⟩],
                  nextTimerId := p.nextTimerId + 1,
                  statusEl := some ⟨statusClass type, statusMarkup h msg type⟩,
                  msgTimer := .value (some p.nextTimerId) }, none) := by
  cases p
  simp only at hs hm
  subst hs hm
  by_cases ht : type = "error"
  · simp [showMessage, ht, clearTimeout]
  · simp [showMessage, ht, clearTimeout, setTimeout]

theorem showMessage_stuck (h : Host) (p : Page) (msg type : String) (timeout : Nat) (s : StatusEl)
    (hs : p.statusEl = some s) (hm : p.msgTimer = .uninitialised) :
    showMessage h p msg type timeout = (p, some (.referenceError "msgTimer")) := by
  unfold showMessage
  rw [hs, hm]

theorem timersOk_showMessage (h : Host) {p : Page} (hp : TimersOk p) (msg type : String)
    (timeout : Nat) : TimersOk (showMessage h p msg type timeout).1 := by
  cases hs : p.statusEl with
  | none => rw [showMessage_no_status h p msg type timeout hs]; exact hp
  | some s =>
    cases hm : p.msgTimer with
    | uninitialised => rw [showMessage_stuck h p msg type timeout s hs hm]; exact hp
    | value mt =>
      rw [showMessage_ready h p msg type timeout s mt hs hm]
      by_cases ht : type = "error"
      · rw [if_pos ht]
        exact hp.sub (cancel_sublist mt p.timers) rfl rfl rfl
      · rw [if_neg ht]
        constructor
        · intro t ht2
          simp only [List.mem_append, List.mem_singleton] at ht2
          show t.id < p.nextTimerId + 1
          rcases ht2 with ht2 | ht2
          · exact Nat.lt_succ_of_lt (hp.fresh t (mem_of_mem_cancel ht2))
          · rw [ht2]; exact Nat.lt_succ_self _
        · show ((cancel mt p.timers ++ [_]).map Timer.id).Nodup
          rw [List.map_append, List.nodup_append]
          refine ⟨((cancel_sublist _ _).map Timer.id).nodup hp.nodup, List.nodup_singleton _, ?_⟩
          intro i hi hi2
          rw [List.map_singleton, List.mem_singleton] at hi2
          obtain ⟨t, ht2, hti⟩ := List.mem_map.1 hi
          have := hp.fresh t (mem_of_mem_cancel ht2)
          rw [hti, hi2] at this
          exact Nat.lt_irrefl _ this
        · intro t ht2 hact
          simp only [List.mem_append, List.mem_singleton] at ht2
          show p.renderTimer = some t.id ∧ t.delay = 220
          rcases ht2 with ht2 | ht2
          · exact hp.render t (mem_of_mem_cancel ht2) hact
          · rw [ht2] at hact; exact TimerAction.noConfusion hact
        · intro t ht2 hact
          simp only [List.mem_append, List.mem_singleton] at ht2
          show Binding.value (some p.nextTimerId) = Binding.value (some t.id)
          rcases ht2 with ht2 | ht2
          · exfalso
            have hold := hp.clear t (mem_of_mem_cancel ht2) hact
            rw [hm] at hold
            have hmt : mt = some t.id := Binding.value.inj hold
            rw [hmt] at ht2
            exact id_ne_of_mem_cancel ht2 rfl
          · rw [ht2]
        · intro i hi
          show i < p.nextTimerId + 1
          exact Nat.lt_succ_of_lt (hp.renderId i hi)
        · intro i hi
          show i < p.nextTimerId + 1
          have hi2 : Binding.value (some p.nextTimerId) = Binding.value (some i) := hi
          rw [← Option.some.inj (Binding.value.inj hi2)]
          exact Nat.lt_succ_self _
        · intro i hi hmm
          have hi1 : p.renderTimer = some i := hi
          have hi2 : Binding.value (some p.nextTimerId) = Binding.value (some i) := hmm
          have := hp.renderId i hi1
          rw [← Option.some.inj (Binding.value.inj hi2)] at this
          exact Nat.lt_irrefl _ this

theorem showMessage_uninit (h : Host) (p : Page) (msg type : String) (timeout : Nat)
    (hm : p.msgTimer = .uninitialised) : (showMessage h p msg type timeout).1 = p := by
  cases hs : p.statusEl with
  | none => rw [showMessage_no_status h p msg type timeout hs]
  | some s => rw [showMessage_stuck h p msg type timeout s hs hm]

/-- No operation adds or removes the status element or evaluates the declaration
of `msgTimer`. -/
theorem showMessage_shape (h : Host) (p : Page) (msg type : String) (timeout : Nat) :
    (showMessage h p msg type timeout).1.statusEl.isSome = p.statusEl.isSome ∧
    (showMessage h p msg type timeout).1.msgTimer.isValue = p.msgTimer.isValue := by
  cases hs : p.statusEl with
  | none => rw [showMessage_no_status h p msg type timeout hs, hs]; exact ⟨rfl, rfl⟩
  | some s =>
    cases hm : p.msgTimer with
    | uninitialised =>
      rw [showMessage_stuck h p msg type timeout s hs hm, hs, hm]; exact ⟨rfl, rfl⟩
    | value mt =>
      rw [showMessage_ready h p msg type timeout s mt hs hm]
      by_cases ht : type = "error"
      · rw [if_pos ht]; exact ⟨rfl, by show p.msgTimer.isValue = _; rw [hm]⟩
      · rw [if_neg ht]; exact ⟨rfl, rfl⟩

theorem renderBarcode_cases (h : Host) (p : Page) :
    (∃ m, renderBarcode h p = showMessage h (entered p) m "error" 4000 ∧
      (validateForFormat p.formatValue (renderText p)).ok = false) ∨
    (renderBarcode h p = (delegated h p, none) ∧
      (validateForFormat p.formatValue (renderText p)).ok = true ∧
      (h.toCanvas p.rendererCalls p.canvas (renderOptions h p)).2 = none) ∨
    (∃ err, renderBarcode h p =
        showMessage h { delegated h p with consoleErrors := p.consoleErrors ++ [err] }
          (renderErrorMessage err) "error" 4000 ∧
      (validateForFormat p.formatValue (renderText p)).ok = true ∧
      (h.toCanvas p.rendererCalls p.canvas (renderOptions h p)).2 = some err) := by
  cases hv : (validateForFormat p.formatValue (renderText p)).ok with
  | false => exact Or.inl ⟨_, renderBarcode_invalid h p hv, rfl⟩
  | true =>
    have hrun := renderBarcode_valid h p hv
    cases hr : (h.toCanvas p.rendererCalls p.canvas (renderOptions h p)).2 with
    | none => rw [hr] at hrun; exact Or.inr (Or.inl ⟨hrun, rfl, rfl⟩)
    | some err => rw [hr] at hrun; exact Or.inr (Or.inr ⟨err, hrun, rfl, rfl⟩)

theorem renderBarcode_shape (h : Host) (p : Page) :
    (renderBarcode h p).1.statusEl.isSome = p.statusEl.isSome ∧
    (renderBarcode h p).1.msgTimer.isValue = p.msgTimer.isValue := by
  rcases renderBarcode_cases h p with ⟨m, hrun, _⟩ | ⟨hrun, _⟩ | ⟨err, hrun, _⟩
  · rw [hrun]; exact showMessage_shape h (entered p) m "error" 4000
  · rw [hrun]
    refine ⟨?_, rfl⟩
    show (p.statusEl.map _).isSome = _
    cases p.statusEl <;> rfl
  · rw [hrun]
    have h1 := showMessage_shape h
      { delegated h p with consoleErrors := p.consoleErrors ++ [err] }
      (renderErrorMessage err) "error" 4000
    refine ⟨h1.1.trans ?_, h1.2⟩
    show (p.statusEl.map _).isSome = _
    cases p.statusEl <;> rfl

theorem timersOk_renderBarcode {p : Page} (hp : TimersOk p) (h : Host) :
    TimersOk (renderBarcode h p).1 := by
  rcases renderBarcode_cases h p with ⟨m, hrun, _⟩ | ⟨hrun, _⟩ | ⟨err, hrun, _⟩
  · rw [hrun]
    exact timersOk_showMessage h (hp.transfer (q := entered p) rfl rfl rfl rfl) m "error" 4000
  · rw [hrun]
    exact hp.transfer rfl rfl rfl rfl
  · rw [hrun]
    exact timersOk_showMessage h
      (hp.transfer (q := { delegated h p with consoleErrors := p.consoleErrors ++ [err] })
        rfl rfl rfl rfl) _ "error" 4000

theorem timerFires_cases (h : Host) (p : Page) (id : Nat) :
    (timerFires h p id = (p, none) ∧ ∀ t ∈ p.timers, t.id ≠ id) ∨
    (∃ t ∈ p.timers, t.id = id ∧ t.action = .render ∧
      timerFires h p id =
        renderBarcode h { p with timers := cancel (some id) p.timers }) ∨
    (∃ t ∈ p.timers, t.id = id ∧ t.action = .clearStatus ∧
      timerFires h p id =
        ({ p with timers := cancel (some id) p.timers,
                  statusEl := p.statusEl.map (fun _ => ⟨"status", ""⟩) }, none)) := by
  unfold timerFires
  cases hf : p.timers.find? (fun t => decide (t.id = id)) with
  | none =>
    refine Or.inl ⟨rfl, fun t ht => ?_⟩
    have := List.find?_eq_none.1 hf t ht
    simpa using this
  | some t =>
    have hmem : t ∈ p.timers := List.mem_of_find?_eq_some hf
    have hid : t.id = id := by simpa using List.find?_some hf
    cases hact : t.action with
    | render => exact Or.inr (Or.inl ⟨t, hmem, hid, hact, by simp only [hact]⟩)
    | clearStatus => exact Or.inr (Or.inr ⟨t, hmem, hid, hact, by simp only [hact]⟩)

theorem timerFires_shape (h : Host) (p : Page) (id : Nat) :
    (timerFires h p id).1.statusEl.isSome = p.statusEl.isSome ∧
    (timerFires h p id).1.msgTimer.isValue = p.msgTimer.isValue := by
  rcases timerFires_cases h p id with ⟨hrun, _⟩ | ⟨t, _, _, _, hrun⟩ | ⟨t, _, _, _, hrun⟩
  · rw [hrun]; exact ⟨rfl, rfl⟩
  · rw [hrun]; exact renderBarcode_shape h _
  · rw [hrun]
    refine ⟨?_, rfl⟩
    show (p.statusEl.map _).isSome = _
    cases p.statusEl <;> rfl

theorem timersOk_timerFires {p : Page} (hp : TimersOk p) (h : Host) (id : Nat) :
    TimersOk (timerFires h p id).1 := by
  rcases timerFires_cases h p id with ⟨hrun, _⟩ | ⟨t, _, _, _, hrun⟩ | ⟨t, _, _, _, hrun⟩
  · rw [hrun]; exact hp
  · rw [hrun]
    exact timersOk_renderBarcode
      (hp.sub (q := { p with timers := cancel (some id) p.timers })
        (cancel_sublist (some id) p.timers) rfl rfl rfl) h
  · rw [hrun]
    exact hp.sub (cancel_sublist (some id) p.timers) rfl rfl rfl

theorem step_shape (h : Host) (e : Event) (p : Page) :
    (step h e p).statusEl.isSome = p.statusEl.isSome ∧
    (step h e p).msgTimer.isValue = p.msgTimer.isValue := by
  cases e with
  | textInput v => exact ⟨rfl, rfl⟩
  | formatChange v => exact ⟨rfl, rfl⟩
  | scaleInput v => exact ⟨rfl, rfl⟩
  | includeChange b => exact ⟨rfl, rfl⟩
  | fgInput v => exact ⟨rfl, rfl⟩
  | bgInput v => exact ⟨rfl, rfl⟩
  | downloadClick failed =>
    cases failed with
    | false => exact ⟨rfl, rfl⟩
    | true => exact showMessage_shape h p _ _ _
  | copyClick o => cases o <;> exact showMessage_shape h p _ _ _
  | timerFires id => exact timerFires_shape h p id
  | callShowMessage msg type timeout => exact showMessage_shape h p _ _ _
  | callRenderBarcode => exact renderBarcode_shape h p

theorem timersOk_step {p : Page} (hp : TimersOk p) (h : Host) (e : Event) :
    TimersOk (step h e p) := by
  cases e with
  | textInput v =>
    exact timersOk_debouncedRender (hp.transfer (q := { p with inputValue := v }) rfl rfl rfl rfl)
  | formatChange v =>
    exact timersOk_debouncedRender
      (hp.transfer (q := setPlaceholderForFormat h { p with formatValue := v }) rfl rfl rfl rfl)
  | scaleInput v =>
    exact timersOk_debouncedRender (hp.transfer (q := { p with scaleValue := v }) rfl rfl rfl rfl)
  | includeChange b =>
    exact timersOk_debouncedRender
      (hp.transfer (q := { p with includeChecked := b }) rfl rfl rfl rfl)
  | fgInput v =>
    exact (timersOk_debouncedRender
      (hp.transfer (q := { p with fgValue := v }) rfl rfl rfl rfl)).transfer rfl rfl rfl rfl
  | bgInput v =>
    exact (timersOk_debouncedRender
      (hp.transfer (q := { p with bgValue := v }) rfl rfl rfl rfl)).transfer rfl rfl rfl rfl
  | downloadClick failed =>
    cases failed with
    | false => exact hp
    | true => exact timersOk_showMessage h hp _ _ _
  | copyClick o => cases o <;> exact timersOk_showMessage h hp _ _ _
  | timerFires id => exact timersOk_timerFires hp h id
  | callShowMessage msg type timeout => exact timersOk_showMessage h hp _ _ _
  | callRenderBarcode => exact timersOk_renderBarcode hp h

/-! ## Load -/

theorem prepared_fields (h : Host) (p : Page) :
    (prepared h p).timers = p.timers ∧ (prepared h p).nextTimerId = p.nextTimerId ∧
    (prepared h p).renderTimer = p.renderTimer ∧ (prepared h p).msgTimer = p.msgTimer ∧
    (prepared h p).statusEl = p.statusEl ∧ (prepared h p).canvas = p.canvas ∧
    (prepared h p).rendererCalls = p.rendererCalls := by
  unfold prepared
  by_cases hi : (setPlaceholderForFormat h p).inputValue = ""
  · simp only [hi, if_true]; exact ⟨rfl, rfl, rfl, rfl, rfl, rfl, rfl⟩
  · simp only [hi, if_false]; exact ⟨rfl, rfl, rfl, rfl, rfl, rfl, rfl⟩

theorem renderBarcode_uninit (h : Host) (p : Page) (hm : p.msgTimer = .uninitialised) :
    (renderBarcode h p).1.timers = p.timers ∧
    (renderBarcode h p).1.nextTimerId = p.nextTimerId ∧
    (renderBarcode h p).1.renderTimer = p.renderTimer ∧
    (renderBarcode h p).1.msgTimer = .uninitialised := by
  rcases renderBarcode_cases h p with ⟨m, hrun, _⟩ | ⟨hrun, _⟩ | ⟨err, hrun, _⟩
  · rw [hrun, showMessage_uninit h (entered p) m "error" 4000 hm]
    exact ⟨rfl, rfl, rfl, hm⟩
  · rw [hrun]; exact ⟨rfl, rfl, rfl, hm⟩
  · rw [hrun, showMessage_uninit h
      { delegated h p with consoleErrors := p.consoleErrors ++ [err] } _ "error" 4000 hm]
    exact ⟨rfl, rfl, rfl, hm⟩

theorem scriptInit_cases (h : Host) (p : Page) :
    (∃ e, (renderBarcode h (prepared h p)).2 = some e ∧
      scriptInit h p = ((renderBarcode h (prepared h p)).1, some e)) ∨
    ((renderBarcode h (prepared h p)).2 = none ∧
      scriptInit h p =
        ({ (renderBarcode h (prepared h p)).1 with msgTimer := .value none }, none)) := by
  unfold scriptInit
  cases hr : renderBarcode h (prepared h p) with
  | mk p4 r =>
    cases r with
    | none => exact Or.inr ⟨rfl, rfl⟩
    | some e => exact Or.inl ⟨e, rfl, rfl⟩

theorem timersOk_loaded (h : Host) (d : Page) : TimersOk (scriptInit h (atLoad d)).1 := by
  obtain ⟨f1, f2, f3, f4, _, _, _⟩ := prepared_fields h (atLoad d)
  have hm : (prepared h (atLoad d)).msgTimer = .uninitialised := f4
  obtain ⟨g1, g2, g3, g4⟩ := renderBarcode_uninit h (prepared h (atLoad d)) hm
  have ht : (renderBarcode h (prepared h (atLoad d))).1.timers = [] := by rw [g1, f1]; rfl
  have hr : (renderBarcode h (prepared h (atLoad d))).1.renderTimer = none := by
    rw [g3, f3]; rfl
  rcases scriptInit_cases h (atLoad d) with ⟨e, _, hrun⟩ | ⟨_, hrun⟩
  · rw [hrun]
    constructor
    · intro t htm; rw [ht] at htm; exact absurd htm (List.not_mem_nil t)
    · rw [ht]; exact List.nodup_nil
    · intro t htm; rw [ht] at htm; exact absurd htm (List.not_mem_nil t)
    · intro t htm; rw [ht] at htm; exact absurd htm (List.not_mem_nil t)
    · intro i hi
      have hi2 : (renderBarcode h (prepared h (atLoad d))).1.renderTimer = some i := hi
      rw [hr] at hi2; exact Option.noConfusion hi2
    · intro i hi
      have hi2 : (renderBarcode h (prepared h (atLoad d))).1.msgTimer = .value (some i) := hi
      rw [g4] at hi2; exact Binding.noConfusion hi2
    · intro i hi
      have hi2 : (renderBarcode h (prepared h (atLoad d))).1.renderTimer = some i := hi
      rw [hr] at hi2; exact Option.noConfusion hi2
  · rw [hrun]
    constructor
    · intro t htm
      have htm2 : t ∈ (renderBarcode h (prepared h (atLoad d))).1.timers := htm
      rw [ht] at htm2; exact absurd htm2 (List.not_mem_nil t)
    · show ((renderBarcode h (prepared h (atLoad d))).1.timers.map Timer.id).Nodup
      rw [ht]; exact List.nodup_nil
    · intro t htm
      have htm2 : t ∈ (renderBarcode h (prepared h (atLoad d))).1.timers := htm
      rw [ht] at htm2; exact absurd htm2 (List.not_mem_nil t)
    · intro t htm
      have htm2 : t ∈ (renderBarcode h (prepared h (atLoad d))).1.timers := htm
      rw [ht] at htm2; exact absurd htm2 (List.not_mem_nil t)
    · intro i hi
      have hi2 : (renderBarcode h (prepared h (atLoad d))).1.renderTimer = some i := hi
      rw [hr] at hi2; exact Option.noConfusion hi2
    · intro i hi
      have hi2 : Binding.value (none : Option Nat) = Binding.value (some i) := hi
      exact Option.noConfusion (Binding.value.inj hi2)
    · intro i hi
      have hi2 : (renderBarcode h (prepared h (atLoad d))).1.renderTimer = some i := hi
      rw [hr] at hi2; exact Option.noConfusion hi2

theorem timersOk_reachable {h : Host} {p : Page} (hr : Reachable h p) : TimersOk p := by
  induction hr with
  | loaded d => exact timersOk_loaded h d
  | step e p _ ih => exact timersOk_step ih h e

theorem reachable_run {h : Host} {p : Page} (hr : Reachable h p) (es : List Event) :
    Reachable h (run h es p) := by
  induction es generalizing p with
  | nil => exact hr
  | cons e es ih => exact ih (Reachable.step e p hr)

theorem run_shape (h : Host) (es : List Event) (p : Page) :
    (run h es p).statusEl.isSome = p.statusEl.isSome ∧
    (run h es p).msgTimer.isValue = p.msgTimer.isValue := by
  induction es generalizing p with
  | nil => exact ⟨rfl, rfl⟩
  | cons e es ih =>
    have h1 := ih (step h e p)
    have h2 := step_shape h e p
    exact ⟨h1.1.trans h2.1, h1.2.trans h2.2⟩

/-- C6: the call of `renderBarcode` at line 149 does not surface errors the way
later calls do.  With a status element, if the text found at load fails
validation or the renderer throws, `showMessage` reads `msgTimer` before line 151
has run: a `ReferenceError` escapes the top-level code, no error message is
written, `msgTimer` is never declared, and every later `showMessage` raises the
same error. -/
theorem load_error_raises (h : Host) (d : Page) (s : StatusEl)
    (hs : d.statusEl = some s)
    (herr : (validateForFormat (prepared h (atLoad d)).formatValue
          (renderText (prepared h (atLoad d)))).ok = false ∨
        (h.toCanvas [] d.canvas (renderOptions h (prepared h (atLoad d)))).2 ≠ none) :
    (scriptInit h (atLoad d)).2 = some (.referenceError "msgTimer") ∧
    (scriptInit h (atLoad d)).1.msgTimer = .uninitialised ∧
    ((scriptInit h (atLoad d)).1.statusEl = some s ∨
      (scriptInit h (atLoad d)).1.statusEl = some ⟨"status", ""⟩) ∧
    (∀ es msg type timeout,
      (showMessage h (run h es (scriptInit h (atLoad d)).1) msg type timeout).2 =
        some (.referenceError "msgTimer")) := by
  obtain ⟨_, _, _, f4, f5, f6, f7⟩ := prepared_fields h (atLoad d)
  have hm : (prepared h (atLoad d)).msgTimer = .uninitialised := f4
  have hs2 : (prepared h (atLoad d)).statusEl = some s := by rw [f5]; exact hs
  have hcv : (prepared h (atLoad d)).canvas = d.canvas := f6
  have hcl : (prepared h (atLoad d)).rendererCalls = [] := f7
  have key : ∃ q, renderBarcode h (prepared h (atLoad d)) = (q, some (.referenceError "msgTimer")) ∧
      q.msgTimer = .uninitialised ∧ (q.statusEl = some s ∨ q.statusEl = some ⟨"status", ""⟩) := by
    rcases renderBarcode_cases h (prepared h (atLoad d)) with
      ⟨m, hrun, _⟩ | ⟨hrun, hv, hnone⟩ | ⟨err, hrun, _⟩
    · rw [hrun, showMessage_stuck h (entered (prepared h (atLoad d))) m "error" 4000 s hs2 hm]
      exact ⟨_, rfl, hm, Or.inl hs2⟩
    · exfalso
      rcases herr with hf | hthrow
      · rw [hv] at hf; exact Bool.noConfusion hf
      · rw [hcl, hcv] at hnone
        exact hthrow hnone
    · have hst := showMessage_stuck h
        { delegated h (prepared h (atLoad d)) with
          consoleErrors := (prepared h (atLoad d)).consoleErrors ++ [err] }
        (renderErrorMessage err) "error" 4000 ⟨"status", ""⟩
        (by show ((prepared h (atLoad d)).statusEl.map _) = _; rw [hs2]; rfl) hm
      rw [hrun, hst]
      refine ⟨_, rfl, hm, Or.inr ?_⟩
      show ((prepared h (atLoad d)).statusEl.map _) = _
      rw [hs2]; rfl
  obtain ⟨q, hq, hqm, hqs⟩ := key
  have hinit : scriptInit h (atLoad d) = (q, some (.referenceError "msgTimer")) := by
    unfold scriptInit
    rw [hq]
  rw [hinit]
  refine ⟨rfl, hqm, hqs, fun es msg type timeout => ?_⟩
  have hsh := run_shape h es q
  have hsome : (run h es q).statusEl.isSome = true := by
    rw [hsh.1]; rcases hqs with h1 | h1 <;> rw [h1] <;> rfl
  have hval : (run h es q).msgTimer.isValue = false := by
    rw [hsh.2, hqm]; rfl
  obtain ⟨s2, hs3⟩ := Option.isSome_iff_exists.1 hsome
  have hun : (run h es q).msgTimer = .uninitialised := by
    cases hmm : (run h es q).msgTimer with
    | uninitialised => rfl
    | value a => rw [hmm] at hval; exact Bool.noConfusion hval
  rw [showMessage_stuck h _ msg type timeout s2 hs3 hun]

theorem load_error_raises_witness :
    (scriptInit sampleHost (atLoad sampleDocument)).2 = some (.referenceError "msgTimer") ∧
    (scriptInit sampleHost (atLoad sampleDocument)).1.msgTimer = .uninitialised ∧
    (showMessage sampleHost (run sampleHost [.textInput "012345678901", .timerFires 1]
        (scriptInit sampleHost (atLoad sampleDocument)).1)
      "Copy failed" "error" 4000).2 = some (.referenceError "msgTimer") :=
  have hall := load_error_raises sampleHost sampleDocument ⟨"status", ""⟩ rfl
    (Or.inl (by decide))
  ⟨hall.1, hall.2.1, hall.2.2.2 _ _ _ _⟩

/-! ## Debounce (C7) -/

theorem filter_cancel_of_ne (o : Option Nat) (ts : List Timer) (f : Timer → Bool)
    (hne : ∀ t ∈ ts, f t = true → ∀ i, o = some i → t.id ≠ i) :
    (cancel o ts).filter f = ts.filter f := by
  cases o with
  | none => rfl
  | some i =>
    unfold cancel
    rw [List.filter_filter]
    apply List.filter_congr
    intro t ht
    by_cases hf : f t = true
    · simp [hf, hne t ht hf i rfl]
    · simp [hf]

theorem render_ne_msg {p : Page} (hp : TimersOk p) {t : Timer} (ht : t ∈ p.timers)
    (hact : t.action = .render) {mt : Option Nat} (hm : p.msgTimer = .value mt) :
    ∀ i, mt = some i → t.id ≠ i := by
  intro i hi hid
  have h1 := (hp.render t ht hact).1
  have h2 := hp.apart t.id h1
  rw [hm, hi, hid] at h2
  exact h2 rfl

theorem clear_ne_render {p : Page} (hp : TimersOk p) {t : Timer} (ht : t ∈ p.timers)
    (hact : t.action = .clearStatus) : ∀ i, p.renderTimer = some i → t.id ≠ i := by
  intro i hi hid
  have h1 := hp.clear t ht hact
  have h2 := hp.apart i hi
  rw [hid] at h1
  exact h2 h1

theorem pendingRender_showMessage (h : Host) {p : Page} (hp : TimersOk p) (msg type : String)
    (timeout : Nat) : pendingRender (showMessage h p msg type timeout).1 = pendingRender p := by
  cases hs : p.statusEl with
  | none => rw [showMessage_no_status h p msg type timeout hs]
  | some s =>
    cases hm : p.msgTimer with
    | uninitialised => rw [showMessage_stuck h p msg type timeout s hs hm]
    | value mt =>
      have hfil : (cancel mt p.timers).filter (fun t => decide (t.action = .render)) =
          p.timers.filter (fun t => decide (t.action = .render)) :=
        filter_cancel_of_ne mt p.timers _
          (fun t ht hf => render_ne_msg hp ht (by simpa using hf) hm)
      rw [showMessage_ready h p msg type timeout s mt hs hm]
      by_cases ht : type = "error"
      · rw [if_pos ht]
        show ((cancel mt p.timers).filter _).map Timer.id = _
        rw [hfil]; rfl
      · rw [if_neg ht]
        show ((cancel mt p.timers ++ [_]).filter _).map Timer.id = _
        rw [List.filter_append, hfil]
        simp [pendingRender]

theorem renderBarcode_runs (h : Host) (p : Page) :
    (renderBarcode h p).1.renderRuns = p.renderRuns + 1 := by
  rcases renderBarcode_cases h p with ⟨m, hrun, _⟩ | ⟨hrun, _⟩ | ⟨err, hrun, _⟩
  · rw [hrun, (showMessage_keeps h _ _ _ _).2.2.1]; rfl
  · rw [hrun]; rfl
  · rw [hrun, (showMessage_keeps h _ _ _ _).2.2.1]; rfl

theorem pendingRender_renderBarcode {p : Page} (hp : TimersOk p) (h : Host) :
    pendingRender (renderBarcode h p).1 = pendingRender p := by
  rcases renderBarcode_cases h p with ⟨m, hrun, _⟩ | ⟨hrun, _⟩ | ⟨err, hrun, _⟩
  · rw [hrun, pendingRender_showMessage h (hp.transfer (q := entered p) rfl rfl rfl rfl)]; rfl
  · rw [hrun]; rfl
  · rw [hrun, pendingRender_showMessage h
      (hp.transfer (q := { delegated h p with consoleErrors := p.consoleErrors ++ [err] })
        rfl rfl rfl rfl)]
    rfl

theorem mem_pendingRender {p : Page} {i : Nat} :
    i ∈ pendingRender p ↔ ∃ t ∈ p.timers, t.action = .render ∧ t.id = i := by
  unfold pendingRender
  simp only [List.mem_map, List.mem_filter, decide_eq_true_eq]
  constructor
  · rintro ⟨t, ⟨h1, h2⟩, h3⟩; exact ⟨t, h1, h2, h3⟩
  · rintro ⟨t, h1, h2, h3⟩; exact ⟨t, ⟨h1, h2⟩, h3⟩

theorem length_le_one_of_nodup {l : List Nat} (hn : l.Nodup) (hall : ∀ a ∈ l, ∀ b ∈ l, a = b) :
    l.length ≤ 1 := by
  match l, hn, hall with
  | [], _, _ => exact Nat.zero_le 1
  | [_], _, _ => exact Nat.le_refl 1
  | a :: b :: r, hn, hall =>
    exfalso
    have hab : a = b := hall a (List.mem_cons_self a _) b
      (List.mem_cons_of_mem a (List.mem_cons_self b r))
    rw [List.nodup_cons] at hn
    exact hn.1 (by rw [hab]; exact List.mem_cons_self b r)

theorem pendingRender_length_le {p : Page} (hp : TimersOk p) :
    (pendingRender p).length ≤ 1 := by
  apply length_le_one_of_nodup
  · exact (((List.filter_sublist p.timers).map Timer.id).nodup hp.nodup)
  · intro a ha b hb
    obtain ⟨t, ht, hact, hid⟩ := mem_pendingRender.1 ha
    obtain ⟨u, hu, hact2, hid2⟩ := mem_pendingRender.1 hb
    have h1 := (hp.render t ht hact).1
    have h2 := (hp.render u hu hact2).1
    rw [h1] at h2
    rw [← hid, ← hid2]
    exact Option.some.inj h2

theorem pendingRender_debouncedRender {p : Page} (hp : TimersOk p) :
    pendingRender (debouncedRender p) = [p.nextTimerId] := by
  have hnil : (cancel p.renderTimer p.timers).filter (fun t => decide (t.action = .render)) =
      [] := by
    rw [List.filter_eq_nil_iff]
    intro t ht hact
    have hact2 : t.action = .render := by simpa using hact
    have hold := (hp.render t (mem_of_mem_cancel ht) hact2).1
    rw [hold] at ht
    exact id_ne_of_mem_cancel ht rfl
  show ((cancel p.renderTimer p.timers ++ [_]).filter _).map Timer.id = _
  rw [List.filter_append, hnil]
  rfl

theorem debouncedRender_cancels {p : Page} (hp : TimersOk p) :
    ∀ i ∈ pendingRender p, i ∉ (debouncedRender p).timers.map Timer.id := by
  intro i hi hmem
  obtain ⟨t, ht, hact, hid⟩ := mem_pendingRender.1 hi
  have hrt := (hp.render t ht hact).1
  rw [hid] at hrt
  have hlt : i < p.nextTimerId := hp.renderId i hrt
  rw [(debouncedRender_fields p).1, hrt, List.map_append, List.mem_append] at hmem
  rcases hmem with hmem | hmem
  · obtain ⟨u, hu, hui⟩ := List.mem_map.1 hmem
    exact id_ne_of_mem_cancel hu hui
  · rw [List.map_singleton, List.mem_singleton] at hmem
    rw [hmem] at hlt
    exact Nat.lt_irrefl _ hlt

theorem iterate_debouncedRender (p : Page) (hp : TimersOk p) (n : Nat) :
    TimersOk (debouncedRender^[n] p) ∧
    (debouncedRender^[n] p).nextTimerId = p.nextTimerId + n ∧
    (debouncedRender^[n] p).renderRuns = p.renderRuns := by
  induction n with
  | zero => exact ⟨hp, rfl, rfl⟩
  | succ n ih =>
    rw [Function.iterate_succ_apply']
    obtain ⟨h1, h2, h3⟩ := ih
    refine ⟨timersOk_debouncedRender h1, ?_, ?_⟩
    · rw [(debouncedRender_fields _).2.1, h2]; omega
    · rw [(debouncedRender_fields _).2.2.2.2.2, h3]

theorem timerFires_not_pending (h : Host) (p : Page) (id : Nat)
    (hid : id ∉ p.timers.map Timer.id) : step h (.timerFires id) p = p := by
  rcases timerFires_cases h p id with ⟨hrun, _⟩ | ⟨t, ht, hti, _, _⟩ | ⟨t, ht, hti, _, _⟩
  · show (timerFires h p id).1 = p
    rw [hrun]
  · exact absurd (List.mem_map.2 ⟨t, ht, hti⟩) hid
  · exact absurd (List.mem_map.2 ⟨t, ht, hti⟩) hid

/-- One firing, when at most the timer `last` can still call `renderBarcode`
(`fired` tells whether it already has). -/
theorem fire_step (h : Host) (q : Page) (last id : Nat) (fired : Bool) (hq : TimersOk q)
    (hpend : pendingRender q = if fired then [] else [last]) :
    (step h (.timerFires id) q).renderRuns =
        q.renderRuns + (if fired = false ∧ id = last then 1 else 0) ∧
    pendingRender (step h (.timerFires id) q) =
        (if (fired || decide (id = last)) then [] else [last]) := by
  show (timerFires h q id).1.renderRuns = _ ∧ pendingRender (timerFires h q id).1 = _
  rcases timerFires_cases h q id with ⟨hrun, hno⟩ | ⟨t, ht, hti, hact, hrun⟩ |
    ⟨t, ht, hti, hact, hrun⟩
  · rw [hrun]
    have hne : ¬ (fired = false ∧ id = last) := by
      rintro ⟨hf, hil⟩
      rw [hf] at hpend
      have hmem : last ∈ pendingRender q := by rw [hpend]; exact List.mem_singleton.2 rfl
      obtain ⟨u, hu, _, hui⟩ := mem_pendingRender.1 hmem
      exact hno u hu (hui.trans hil.symm)
    rw [if_neg hne, hpend]
    refine ⟨rfl, ?_⟩
    cases fired with
    | true => rfl
    | false =>
      have hil : ¬ id = last := fun hil => hne ⟨rfl, hil⟩
      simp [hil]
  · have hmem : id ∈ pendingRender q := mem_pendingRender.2 ⟨t, ht, hact, hti⟩
    have hf : fired = false := by
      cases fired with
      | false => rfl
      | true => rw [hpend] at hmem; exact absurd hmem (List.not_mem_nil id)
    rw [hf] at hpend
    have hil : id = last := by rw [hpend] at hmem; exact List.mem_singleton.1 hmem
    have hq1 : TimersOk { q with timers := cancel (some id) q.timers } :=
      hq.sub (cancel_sublist (some id) q.timers) rfl rfl rfl
    have hnil : pendingRender { q with timers := cancel (some id) q.timers } = [] := by
      show ((cancel (some id) q.timers).filter _).map Timer.id = []
      have : (cancel (some id) q.timers).filter (fun t => decide (t.action = .render)) = [] := by
        rw [List.filter_eq_nil_iff]
        intro u hu hact2
        have hact3 : u.action = .render := by simpa using hact2
        have hin : u.id ∈ pendingRender q :=
          mem_pendingRender.2 ⟨u, mem_of_mem_cancel hu, hact3, rfl⟩
        rw [hpend] at hin
        exact id_ne_of_mem_cancel hu ((List.mem_singleton.1 hin).trans hil.symm)
      rw [this]; rfl
    rw [hrun, renderBarcode_runs, pendingRender_renderBarcode hq1, hnil, hf]
    simp [hil]
  · have hne : id ≠ last ∨ fired = true := by
      cases fired with
      | true => exact Or.inr rfl
      | false =>
        left
        intro hil
        have hmem : last ∈ pendingRender q := by rw [hpend]; exact List.mem_singleton.2 rfl
        obtain ⟨u, hu, hact2, hui⟩ := mem_pendingRender.1 hmem
        have h1 := (hq.render u hu hact2).1
        exact clear_ne_render hq ht hact u.id h1 (hti.trans (hil.trans hui.symm))
    have hfil : (cancel (some id) q.timers).filter (fun t => decide (t.action = .render)) =
        q.timers.filter (fun t => decide (t.action = .render)) := by
      apply filter_cancel_of_ne
      intro u hu hf i hi hui
      have hact2 : u.action = .render := by simpa using hf
      have h1 := (hq.render u hu hact2).1
      have hidi : id = i := Option.some.inj hi
      exact clear_ne_render hq ht hact u.id h1 (hti.trans (hidi.trans hui.symm))
    rw [hrun]
    refine ⟨?_, ?_⟩
    · show q.renderRuns = _
      rcases hne with hne | hne
      · simp [hne]
      · simp [hne]
    · show ((cancel (some id) q.timers).filter _).map Timer.id = _
      rw [hfil]
      show pendingRender q = _
      rw [hpend]
      rcases hne with hne | hne
      · simp [hne]
      · simp [hne]

theorem fire_run (h : Host) (last : Nat) (ids : List Nat) :
    ∀ (q : Page) (fired : Bool), TimersOk q →
      pendingRender q = (if fired then [] else [last]) →
      (run h (ids.map Event.timerFires) q).renderRuns =
        q.renderRuns + (if fired = false ∧ last ∈ ids then 1 else 0) := by
  induction ids with
  | nil => intro q fired _ _; simp [run]
  | cons id ids ih =>
    intro q fired hq hpend
    obtain ⟨h1, h2⟩ := fire_step h q last id fired hq hpend
    have h3 := ih (step h (.timerFires id) q) (fired || decide (id = last))
      (timersOk_step hq h (.timerFires id)) h2
    show (run h (ids.map Event.timerFires) (step h (.timerFires id) q)).renderRuns = _
    rw [h3, h1]
    cases fired with
    | true => simp
    | false =>
      by_cases hil : id = last
      · simp [hil]
      · have hil2 : ¬ last = id := fun hc => hil hc.symm
        simp [hil, hil2]

/-- C7: in every reachable state at most one render timer is pending; a call of
`debouncedRender` removes the pending render timer and schedules one with delay
220, which is then the only one; after `n ≥ 1` calls in a row `renderBarcode` has
not run, and whatever timers fire afterwards, in any order, it runs once if the
timer of the last call is among them and not at all otherwise; an identifier
that is not pending, such as a cancelled one, does nothing when it fires. -/
theorem debounce_single_timer (h : Host) (p : Page) (hr : Reachable h p) :
    (pendingRender p).length ≤ 1 ∧
    ((debouncedRender p).timers =
        cancel p.renderTimer p.timers ++ [⟨p.nextTimerId, 220, .render⟩] ∧
      pendingRender (debouncedRender p) = [p.nextTimerId] ∧
      ∀ i ∈ pendingRender p, i ∉ (debouncedRender p).timers.map Timer.id) ∧
    (∀ n, 1 ≤ n → ∀ ids : List Nat,
      (debouncedRender^[n] p).renderRuns = p.renderRuns ∧
      pendingRender (debouncedRender^[n] p) = [p.nextTimerId + n - 1] ∧
      (run h (ids.map Event.timerFires) (debouncedRender^[n] p)).renderRuns =
        p.renderRuns + (if p.nextTimerId + n - 1 ∈ ids then 1 else 0)) ∧
    (∀ id, id ∉ p.timers.map Timer.id → step h (.timerFires id) p = p) := by
  have hp := timersOk_reachable hr
  refine ⟨pendingRender_length_le hp,
    ⟨rfl, pendingRender_debouncedRender hp, debouncedRender_cancels hp⟩, ?_,
    timerFires_not_pending h p⟩
  intro n hn ids
  obtain ⟨k, rfl⟩ : ∃ k, n = k + 1 := ⟨n - 1, by omega⟩
  obtain ⟨a1, a2, a3⟩ := iterate_debouncedRender p hp k
  obtain ⟨b1, _, b3⟩ := iterate_debouncedRender p hp (k + 1)
  have hpend : pendingRender (debouncedRender^[k + 1] p) = [p.nextTimerId + (k + 1) - 1] := by
    rw [Function.iterate_succ_apply', pendingRender_debouncedRender a1, a2]
    rfl
  refine ⟨b3, hpend, ?_⟩
  have hrun := fire_run h (p.nextTimerId + (k + 1) - 1) ids (debouncedRender^[k + 1] p) false b1
    (by rw [hpend]; rfl)
  rw [hrun, b3]
  simp

theorem debounce_single_timer_witness :
    (run sampleHost ([1, 2, 3, 3].map Event.timerFires)
        (debouncedRender^[3] (scriptInit sampleHost (atLoad emptyDocument)).1)).renderRuns =
      (scriptInit sampleHost (atLoad emptyDocument)).1.renderRuns +
        (if (scriptInit sampleHost (atLoad emptyDocument)).1.nextTimerId + 3 - 1 ∈ [1, 2, 3, 3]
          then 1 else 0) :=
  ((debounce_single_timer sampleHost _ (Reachable.loaded emptyDocument)).2.2.1 3
    (by decide) [1, 2, 3, 3]).2.2

/-! ## Status messages and their timers (C9) -/

theorem statusClass_eq_error (type : String) :
    statusClass type = "status show error" ↔ type = "error" := by
  constructor
  · intro hc
    have hd := congrArg String.data hc
    unfold statusClass at hd
    rw [String.data_append] at hd
    have hd2 : "status show error".data = "status show ".data ++ "error".data := by decide
    rw [hd2] at hd
    have hx : (if type = "" then "info" else type) = "error" :=
      String.ext (List.append_cancel_left hd)
    by_cases ht : type = ""
    · rw [if_pos ht] at hx; exact absurd hx (by decide)
    · rw [if_neg ht] at hx; exact hx
  · intro ht; rw [ht]; decide

theorem pendingClear_cancel_msg {p : Page} (hp : TimersOk p) {mt : Option Nat}
    (hm : p.msgTimer = .value mt) :
    (cancel mt p.timers).filter (fun t => decide (t.action = .clearStatus)) = [] := by
  rw [List.filter_eq_nil_iff]
  intro t ht hact
  have hact2 : t.action = .clearStatus := by simpa using hact
  have hold := hp.clear t (mem_of_mem_cancel ht) hact2
  rw [hm] at hold
  have hmt : mt = some t.id := Binding.value.inj hold
  rw [hmt] at ht
  exact id_ne_of_mem_cancel ht rfl

theorem pendingClear_debouncedRender {p : Page} (hp : TimersOk p) :
    pendingClear (debouncedRender p) = pendingClear p := by
  have hfil : (cancel p.renderTimer p.timers).filter (fun t => decide (t.action = .clearStatus)) =
      p.timers.filter (fun t => decide (t.action = .clearStatus)) :=
    filter_cancel_of_ne p.renderTimer p.timers _
      (fun t ht hf => clear_ne_render hp ht (by simpa using hf))
  show (cancel p.renderTimer p.timers ++ [_]).filter _ = _
  rw [List.filter_append, hfil]
  simp [pendingClear]

theorem StatusOk.carry {p q : Page} (hp : StatusOk p) (h1 : q.statusEl = p.statusEl)
    (h2 : q.timers = p.timers) : StatusOk q := by
  intro s hs
  have hpc : pendingClear q = pendingClear p := by unfold pendingClear; rw [h2]
  rw [hpc]
  exact hp s (h1 ▸ hs)

theorem statusOk_cleared (p : Page) (hs : ∀ s, p.statusEl = some s → s = ⟨"status", ""⟩) :
    StatusOk p := by
  intro s hs2
  have := hs s hs2
  subst this
  exact ⟨fun hc => absurd hc (by decide), fun hc => absurd rfl hc⟩

theorem showMessage_post (h : Host) (p : Page) (msg type : String) (timeout : Nat) (hp : TimersOk p)
    (hready : Ready p) :
    (showMessage h p msg type timeout).1.statusEl =
        some ⟨statusClass type, statusMarkup h msg type⟩ ∧
    (type = "error" → pendingClear (showMessage h p msg type timeout).1 = []) ∧
    (type ≠ "error" → pendingClear (showMessage h p msg type timeout).1 =
      [⟨p.nextTimerId, if timeout = 0 then 3000 else timeout, .clearStatus⟩]) := by
  obtain ⟨s, hs⟩ := Option.isSome_iff_exists.1 hready.1
  cases hm : p.msgTimer with
  | uninitialised =>
    have := hready.2
    rw [hm] at this
    exact Bool.noConfusion this
  | value mt =>
    rw [showMessage_ready h p msg type timeout s mt hs hm]
    by_cases ht : type = "error"
    · rw [if_pos ht]
      refine ⟨rfl, fun _ => pendingClear_cancel_msg hp hm, fun hc => absurd ht hc⟩
    · rw [if_neg ht]
      refine ⟨rfl, fun hc => absurd hc ht, fun _ => ?_⟩
      show (cancel mt p.timers ++ [_]).filter _ = _
      rw [List.filter_append, pendingClear_cancel_msg hp hm]
      rfl

theorem statusOk_showMessage (h : Host) {p : Page} (hp : TimersOk p) (hs : StatusOk p)
    (msg type : String) (timeout : Nat) : StatusOk (showMessage h p msg type timeout).1 := by
  cases hst : p.statusEl with
  | none => rw [showMessage_no_status h p msg type timeout hst]; exact hs
  | some s =>
    cases hm : p.msgTimer with
    | uninitialised => rw [showMessage_stuck h p msg type timeout s hst hm]; exact hs
    | value mt =>
      have hready : Ready p := ⟨by rw [hst]; rfl, by rw [hm]; rfl⟩
      obtain ⟨h1, h2, h3⟩ := showMessage_post h p msg type timeout hp hready
      intro s2 hs2
      rw [h1] at hs2
      have hs3 : s2 = ⟨statusClass type, statusMarkup h msg type⟩ := (Option.some.inj hs2).symm
      subst hs3
      refine ⟨fun hc => h2 ((statusClass_eq_error type).1 hc), fun _ hc => ?_⟩
      have hne : type ≠ "error" := fun ht => hc ((statusClass_eq_error type).2 ht)
      rw [h3 hne]
      rfl

theorem delegated_status (h : Host) (p : Page) :
    ∀ s, (delegated h p).statusEl = some s → s = ⟨"status", ""⟩ := by
  intro s hs
  have hs2 : p.statusEl.map (fun _ => (⟨"status", ""⟩ : StatusEl)) = some s := hs
  cases hp : p.statusEl with
  | none => rw [hp] at hs2; exact Option.noConfusion hs2
  | some s0 => rw [hp] at hs2; exact (Option.some.inj hs2).symm

theorem statusOk_renderBarcode {p : Page} (hp : TimersOk p) (hs : StatusOk p) (h : Host) :
    StatusOk (renderBarcode h p).1 := by
  rcases renderBarcode_cases h p with ⟨m, hrun, _⟩ | ⟨hrun, _⟩ | ⟨err, hrun, _⟩
  · rw [hrun]
    exact statusOk_showMessage h (hp.transfer (q := entered p) rfl rfl rfl rfl)
      (hs.carry (q := entered p) rfl rfl) m "error" 4000
  · rw [hrun]
    exact statusOk_cleared _ (delegated_status h p)
  · rw [hrun]
    exact statusOk_showMessage h
      (hp.transfer (q := { delegated h p with consoleErrors := p.consoleErrors ++ [err] })
        rfl rfl rfl rfl)
      (statusOk_cleared _ (delegated_status h p)) _ "error" 4000

theorem statusOk_debouncedRender {p : Page} (hp : TimersOk p) (hs : StatusOk p) :
    StatusOk (debouncedRender p) := by
  intro s hs2
  rw [pendingClear_debouncedRender hp]
  exact hs s hs2

theorem statusOk_timerFires {p : Page} (hp : TimersOk p) (hs : StatusOk p) (h : Host)
    (id : Nat) : StatusOk (timerFires h p id).1 := by
  rcases timerFires_cases h p id with ⟨hrun, _⟩ | ⟨t, ht, hti, hact, hrun⟩ |
    ⟨t, ht, hti, hact, hrun⟩
  · rw [hrun]; exact hs
  · have hrt := (hp.render t ht hact).1
    rw [hti] at hrt
    have hfil : (cancel (some id) p.timers).filter (fun t => decide (t.action = .clearStatus)) =
        p.timers.filter (fun t => decide (t.action = .clearStatus)) := by
      apply filter_cancel_of_ne
      intro u hu hf i hi
      have hidi : id = i := Option.some.inj hi
      rw [← hidi]
      exact clear_ne_render hp hu (by simpa using hf) id hrt
    have hs1 : StatusOk { p with timers := cancel (some id) p.timers } := by
      intro s hs2
      have hpc : pendingClear { p with timers := cancel (some id) p.timers } = pendingClear p :=
        hfil
      rw [hpc]
      exact hs s hs2
    rw [hrun]
    exact statusOk_renderBarcode
      (hp.sub (q := { p with timers := cancel (some id) p.timers })
        (cancel_sublist (some id) p.timers) rfl rfl rfl) hs1 h
  · rw [hrun]
    apply statusOk_cleared
    intro s hs2
    have hs3 : p.statusEl.map (fun _ => (⟨"status", ""⟩ : StatusEl)) = some s := hs2
    cases hp2 : p.statusEl with
    | none => rw [hp2] at hs3; exact Option.noConfusion hs3
    | some s0 => rw [hp2] at hs3; exact (Option.some.inj hs3).symm

theorem statusOk_step {p : Page} (hp : TimersOk p) (hs : StatusOk p) (h : Host) (e : Event) :
    StatusOk (step h e p) := by
  cases e with
  | textInput v =>
    exact statusOk_debouncedRender (hp.transfer (q := { p with inputValue := v }) rfl rfl rfl rfl)
      (hs.carry (q := { p with inputValue := v }) rfl rfl)
  | formatChange v =>
    exact statusOk_debouncedRender
      (hp.transfer (q := setPlaceholderForFormat h { p with formatValue := v }) rfl rfl rfl rfl)
      (hs.carry (q := setPlaceholderForFormat h { p with formatValue := v }) rfl rfl)
  | scaleInput v =>
    exact statusOk_debouncedRender (hp.transfer (q := { p with scaleValue := v }) rfl rfl rfl rfl)
      (hs.carry (q := { p with scaleValue := v }) rfl rfl)
  | includeChange b =>
    exact statusOk_debouncedRender
      (hp.transfer (q := { p with includeChecked := b }) rfl rfl rfl rfl)
      (hs.carry (q := { p with includeChecked := b }) rfl rfl)
  | fgInput v =>
    exact (statusOk_debouncedRender
      (hp.transfer (q := { p with fgValue := v }) rfl rfl rfl rfl)
      (hs.carry (q := { p with fgValue := v }) rfl rfl)).carry rfl rfl
  | bgInput v =>
    exact (statusOk_debouncedRender
      (hp.transfer (q := { p with bgValue := v }) rfl rfl rfl rfl)
      (hs.carry (q := { p with bgValue := v }) rfl rfl)).carry rfl rfl
  | downloadClick failed =>
    cases failed with
    | false => exact hs
    | true => exact statusOk_showMessage h hp hs _ _ _
  | copyClick o => cases o <;> exact statusOk_showMessage h hp hs _ _ _
  | timerFires id => exact statusOk_timerFires hp hs h id
  | callShowMessage msg type timeout => exact statusOk_showMessage h hp hs _ _ _
  | callRenderBarcode => exact statusOk_renderBarcode hp hs h

theorem statusOk_loaded (h : Host) (d : Page) (hready : Ready (scriptInit h (atLoad d)).1) :
    StatusOk (scriptInit h (atLoad d)).1 := by
  obtain ⟨_, _, _, f4, _, _, _⟩ := prepared_fields h (atLoad d)
  have hm : (prepared h (atLoad d)).msgTimer = .uninitialised := f4
  rcases scriptInit_cases h (atLoad d) with ⟨e, _, hrun⟩ | ⟨hnone, hrun⟩
  · exfalso
    have h2 := hready.2
    rw [hrun, (renderBarcode_uninit h (prepared h (atLoad d)) hm).2.2.2] at h2
    exact Bool.noConfusion h2
  · have h1 : ((renderBarcode h (prepared h (atLoad d))).1.statusEl).isSome = true := by
      have := hready.1
      rw [hrun] at this
      exact this
    have h3 : (prepared h (atLoad d)).statusEl.isSome = true := by
      rw [← (renderBarcode_shape h (prepared h (atLoad d))).1]; exact h1
    obtain ⟨s, hs⟩ := Option.isSome_iff_exists.1 h3
    rw [hrun]
    rcases renderBarcode_cases h (prepared h (atLoad d)) with
      ⟨m, hrb, _⟩ | ⟨hrb, _⟩ | ⟨err, hrb, _⟩
    · exfalso
      rw [hrb, showMessage_stuck h (entered (prepared h (atLoad d))) m "error" 4000 s hs hm] at hnone
      exact Option.noConfusion hnone
    · rw [hrb]
      exact statusOk_cleared _ (delegated_status h (prepared h (atLoad d)))
    · exfalso
      rw [hrb, showMessage_stuck h
        { delegated h (prepared h (atLoad d)) with
          consoleErrors := (prepared h (atLoad d)).consoleErrors ++ [err] }
        (renderErrorMessage err) "error" 4000 ⟨"status", ""⟩
        (by show ((prepared h (atLoad d)).statusEl.map _) = _; rw [hs]; rfl) hm] at hnone
      exact Option.noConfusion hnone

theorem statusOk_reachable {h : Host} {p : Page} (hr : Reachable h p) :
    Ready p → StatusOk p := by
  induction hr with
  | loaded d => exact statusOk_loaded h d
  | step e p hrp ih =>
    intro hready
    have hsh := step_shape h e p
    have hready0 : Ready p := ⟨by rw [← hsh.1]; exact hready.1, by rw [← hsh.2]; exact hready.2⟩
    exact statusOk_step (timersOk_reachable hrp) (ih hready0) h e

theorem renderBarcode_status (h : Host) (p : Page) (hready : Ready p) :
    ((validateForFormat p.formatValue (renderText p)).ok = false →
      ∃ m, (validateForFormat p.formatValue (renderText p)).msg = some m ∧
        (renderBarcode h p).1.statusEl = some ⟨"status show error", statusMarkup h m "error"⟩) ∧
    ((validateForFormat p.formatValue (renderText p)).ok = true →
      (renderBarcode h p).1.statusEl = some ⟨"status", ""⟩ ∨
      ∃ err, (renderBarcode h p).1.statusEl =
        some ⟨"status show error", statusMarkup h (renderErrorMessage err) "error"⟩) := by
  obtain ⟨s, hs⟩ := Option.isSome_iff_exists.1 hready.1
  have hmv : ∃ mt, p.msgTimer = .value mt := by
    cases hm : p.msgTimer with
    | uninitialised => have := hready.2; rw [hm] at this; exact Bool.noConfusion this
    | value mt => exact ⟨mt, rfl⟩
  obtain ⟨mt, hm⟩ := hmv
  have hdel : (delegated h p).statusEl = some ⟨"status", ""⟩ := by
    show p.statusEl.map _ = _
    rw [hs]; rfl
  constructor
  · intro hf
    rcases validateForFormat_rejects_with_msg _ _ hf with h1 | h1 | h1
    all_goals
      refine ⟨_, h1.1, ?_⟩
      rw [renderBarcode_invalid h p hf, h1.1]
      exact (showMessage_error_status h (entered p) _ s mt hs hm).1
  · intro hv
    rcases renderBarcode_cases h p with ⟨m, _, hf⟩ | ⟨hrun, _⟩ | ⟨err, hrun, _⟩
    · rw [hv] at hf; exact Bool.noConfusion hf
    · left; rw [hrun]; exact hdel
    · right
      refine ⟨err, ?_⟩
      rw [hrun]
      exact (showMessage_error_status h
        { delegated h p with consoleErrors := p.consoleErrors ++ [err] }
        (renderErrorMessage err) ⟨"status", ""⟩ mt hdel hm).1

theorem step_keeps_error (h : Host) (p : Page) (e : Event) (hnone : pendingClear p = [])
    (h1 : e.callsShowMessage = false) (h2 : e.runsRenderBarcode p = false) :
    (step h e p).statusEl = p.statusEl := by
  cases e with
  | textInput v => rfl
  | formatChange v => rfl
  | scaleInput v => rfl
  | includeChange b => rfl
  | fgInput v => rfl
  | bgInput v => rfl
  | downloadClick failed =>
    cases failed with
    | false => rfl
    | true => exact Bool.noConfusion h1
  | copyClick o => exact Bool.noConfusion h1
  | callShowMessage msg type timeout => exact Bool.noConfusion h1
  | callRenderBarcode => exact Bool.noConfusion h2
  | timerFires id =>
    show (timerFires h p id).1.statusEl = _
    rcases timerFires_cases h p id with ⟨hrun, _⟩ | ⟨t, ht, hti, hact, _⟩ |
      ⟨t, ht, hti, hact, _⟩
    · rw [hrun]
    · exfalso
      have hmem : id ∈ pendingRender p := mem_pendingRender.2 ⟨t, ht, hact, hti⟩
      have h3 : decide (id ∈ pendingRender p) = false := h2
      rw [decide_eq_false_iff_not] at h3
      exact h3 hmem
    · exfalso
      have hmem : t ∈ pendingClear p := by
        unfold pendingClear
        rw [List.mem_filter]
        exact ⟨ht, by simpa using hact⟩
      rw [hnone] at hmem
      exact List.not_mem_nil t hmem

theorem step_render_status (h : Host) (p : Page) (e : Event) (hp : TimersOk p)
    (hready : Ready p) (hrun : e.runsRenderBarcode p = true) :
    ((validateForFormat p.formatValue (renderText p)).ok = false →
      ∃ m, (validateForFormat p.formatValue (renderText p)).msg = some m ∧
        (step h e p).statusEl = some ⟨"status show error", statusMarkup h m "error"⟩) ∧
    ((validateForFormat p.formatValue (renderText p)).ok = true →
      (step h e p).statusEl = some ⟨"status", ""⟩ ∨
      ∃ err, (step h e p).statusEl =
        some ⟨"status show error", statusMarkup h (renderErrorMessage err) "error"⟩) := by
  cases e with
  | textInput v => exact Bool.noConfusion hrun
  | formatChange v => exact Bool.noConfusion hrun
  | scaleInput v => exact Bool.noConfusion hrun
  | includeChange b => exact Bool.noConfusion hrun
  | fgInput v => exact Bool.noConfusion hrun
  | bgInput v => exact Bool.noConfusion hrun
  | downloadClick failed => exact Bool.noConfusion hrun
  | copyClick o => exact Bool.noConfusion hrun
  | callShowMessage msg type timeout => exact Bool.noConfusion hrun
  | callRenderBarcode => exact renderBarcode_status h p hready
  | timerFires id =>
    have hmem : id ∈ pendingRender p := by
      have h3 : decide (id ∈ pendingRender p) = true := hrun
      exact of_decide_eq_true h3
    obtain ⟨t, ht, hact, hti⟩ := mem_pendingRender.1 hmem
    have hfire : timerFires h p id =
        renderBarcode h { p with timers := cancel (some id) p.timers } := by
      rcases timerFires_cases h p id with ⟨_, hno⟩ | ⟨_, _, _, _, hr⟩ | ⟨u, hu, hui, hact2, _⟩
      · exact absurd hti (hno t ht)
      · exact hr
      · exfalso
        have hrt := (hp.render t ht hact).1
        rw [hti] at hrt
        exact clear_ne_render hp hu hact2 id hrt hui
    show ((validateForFormat p.formatValue (renderText p)).ok = false →
        ∃ m, (validateForFormat p.formatValue (renderText p)).msg = some m ∧
          (timerFires h p id).1.statusEl = _) ∧ (_ → (timerFires h p id).1.statusEl = _ ∨
        ∃ err, (timerFires h p id).1.statusEl = _)
    rw [hfire]
    exact renderBarcode_status h { p with timers := cancel (some id) p.timers } hready

theorem step_quiet (h : Host) (p : Page) (e : Event) (hp : TimersOk p)
    (h1 : e.callsShowMessage = false) (h2 : e.runsRenderBarcode p = false)
    (h3 : ∀ id, e = .timerFires id → id ∉ (pendingClear p).map Timer.id) :
    (step h e p).statusEl = p.statusEl ∧ pendingClear (step h e p) = pendingClear p := by
  cases e with
  | textInput v =>
    exact ⟨rfl, pendingClear_debouncedRender
      (hp.transfer (q := { p with inputValue := v }) rfl rfl rfl rfl)⟩
  | formatChange v =>
    exact ⟨rfl, pendingClear_debouncedRender
      (hp.transfer (q := setPlaceholderForFormat h { p with formatValue := v }) rfl rfl rfl rfl)⟩
  | scaleInput v =>
    exact ⟨rfl, pendingClear_debouncedRender
      (hp.transfer (q := { p with scaleValue := v }) rfl rfl rfl rfl)⟩
  | includeChange b =>
    exact ⟨rfl, pendingClear_debouncedRender
      (hp.transfer (q := { p with includeChecked := b }) rfl rfl rfl rfl)⟩
  | fgInput v =>
    exact ⟨rfl, pendingClear_debouncedRender
      (hp.transfer (q := { p with fgValue := v }) rfl rfl rfl rfl)⟩
  | bgInput v =>
    exact ⟨rfl, pendingClear_debouncedRender
      (hp.transfer (q := { p with bgValue := v }) rfl rfl rfl rfl)⟩
  | downloadClick failed =>
    cases failed with
    | false => exact ⟨rfl, rfl⟩
    | true => exact Bool.noConfusion h1
  | copyClick o => exact Bool.noConfusion h1
  | callShowMessage msg type timeout => exact Bool.noConfusion h1
  | callRenderBarcode => exact Bool.noConfusion h2
  | timerFires id =>
    show (timerFires h p id).1.statusEl = _ ∧ pendingClear (timerFires h p id).1 = _
    rcases timerFires_cases h p id with ⟨hrun, _⟩ | ⟨t, ht, hti, hact, _⟩ |
      ⟨t, ht, hti, hact, _⟩
    · rw [hrun]; exact ⟨rfl, rfl⟩
    · exfalso
      have hmem : id ∈ pendingRender p := mem_pendingRender.2 ⟨t, ht, hact, hti⟩
      have h4 : decide (id ∈ pendingRender p) = false := h2
      rw [decide_eq_false_iff_not] at h4
      exact h4 hmem
    · exfalso
      have hmem : t ∈ pendingClear p := by
        unfold pendingClear
        rw [List.mem_filter]
        exact ⟨ht, by simpa using hact⟩
      exact h3 id rfl (List.mem_map.2 ⟨t, hmem, hti⟩)

/-- C9: in every reachable state with the status element present and the
top-level code run to its end: while the status shows an error message no
clearing timer is pending, so no event other than a call of `showMessage` or a
run of `renderBarcode` changes it (a run that fails validation replaces it by the
validation error, a run that passes clears it or shows the renderer's error);
while the status shows any other message exactly one clearing timer is pending;
`showMessage` with a type other than `error` leaves exactly one clearing timer,
with delay `timeout`, or 3000 when `timeout` is 0; and that timer and the status
stay as they are under every event that neither calls `showMessage`, nor runs
`renderBarcode`, nor is the firing of that timer. -/
theorem error_message_persistent (h : Host) (p : Page) (hr : Reachable h p)
    (hready : Ready p) :
    (∀ s, p.statusEl = some s → s.className = "status show error" → pendingClear p = []) ∧
    (∀ s e, p.statusEl = some s → s.className = "status show error" →
      e.callsShowMessage = false → e.runsRenderBarcode p = false →
        (step h e p).statusEl = some s) ∧
    (∀ e, e.runsRenderBarcode p = true →
      ((validateForFormat p.formatValue (renderText p)).ok = false →
        ∃ m, (validateForFormat p.formatValue (renderText p)).msg = some m ∧
          (step h e p).statusEl = some ⟨"status show error", statusMarkup h m "error"⟩) ∧
      ((validateForFormat p.formatValue (renderText p)).ok = true →
        (step h e p).statusEl = some ⟨"status", ""⟩ ∨
        ∃ err, (step h e p).statusEl =
          some ⟨"status show error", statusMarkup h (renderErrorMessage err) "error"⟩)) ∧
    (∀ s, p.statusEl = some s → s.className ≠ "status" →
      s.className ≠ "status show error" → (pendingClear p).length = 1) ∧
    (∀ msg type timeout,
      (showMessage h p msg type timeout).1.statusEl =
          some ⟨statusClass type, statusMarkup h msg type⟩ ∧
      (type = "error" → pendingClear (showMessage h p msg type timeout).1 = []) ∧
      (type ≠ "error" → pendingClear (showMessage h p msg type timeout).1 =
        [⟨p.nextTimerId, if timeout = 0 then 3000 else timeout, .clearStatus⟩])) ∧
    (∀ e, e.callsShowMessage = false → e.runsRenderBarcode p = false →
      (∀ id, e = .timerFires id → id ∉ (pendingClear p).map Timer.id) →
        (step h e p).statusEl = p.statusEl ∧ pendingClear (step h e p) = pendingClear p) := by
  have hp := timersOk_reachable hr
  have hs := statusOk_reachable hr hready
  refine ⟨fun s h1 h2 => (hs s h1).1 h2, ?_, fun e he => step_render_status h p e hp hready he,
    fun s h1 h2 h3 => (hs s h1).2 h2 h3, fun msg type timeout =>
      showMessage_post h p msg type timeout hp hready, fun e h1 h2 h3 =>
      step_quiet h p e hp h1 h2 h3⟩
  intro s e h1 h2 h3 h4
  rw [step_keeps_error h p e ((hs s h1).1 h2) h3 h4]
  exact h1

theorem error_message_persistent_witness :
    pendingClear
      (run sampleHost
        [.copyClick .written, .textInput "0123-4567-8901", .timerFires 2]
        (scriptInit sampleHost (atLoad emptyDocument)).1) = [] :=
  (error_message_persistent sampleHost
    (run sampleHost
      [.copyClick .written, .textInput "0123-4567-8901", .timerFires 2]
      (scriptInit sampleHost (atLoad emptyDocument)).1)
    (reachable_run (Reachable.loaded emptyDocument) _)
    ⟨by decide, by decide⟩).1
    ⟨"status show error", statusMarkup sampleHost "bad character in ean13 text" "error"⟩
    rfl rfl

end Barcode
